import Mathlib

/-!
# Verification of the confit-lsp validation engine

Shallow embedding of the confit-lite/confit-lsp repository, centred on
`ConfitLanguageServer.validate_config` and `ConfitLanguageServer.parse`
(`src/packages/confit-lsp/src/confit_lsp/main.py`), together with the
document model (`src/src/confit_lsp/descriptor.py`) and the schema
introspection rules (`src/packages/confit-lsp/src/confit_lsp/inspection/pydantic.py`).

Python exceptions are made explicit: each embedded operation returns
`Except PyErr _`, where `.error e` means the Python code raises exception
`e` at that point and the exception propagates to the caller (nothing is
returned).  Python `dict`s are embedded as insertion-ordered association
lists (CPython dicts preserve insertion order); Python `set`s have a
hash-dependent iteration order, which is embedded as an explicit
`setIter` oracle argument: wherever the source iterates over a `set`,
the embedding applies `setIter` to the underlying element list, and an
oracle is admissible as a Python set order whenever it permutes its input.
-/

namespace Confit

/-- A path of table keys, as in `confit_lsp.parsers.types.ElementPath`
(tuples of keys; the documents in this development use tables only, so
integer array indices are not needed). -/
abbrev ElementPath := List String

/-- Python exceptions that the embedded code can raise. -/
inductive PyErr where
  | keyError
  | typeError
  | attributeError
  | indexError
  | valueError
  /-- `rtoml.TomlParsingError`, raised by `rtoml.loads` on malformed input. -/
  | parseError
deriving DecidableEq, Repr

/-- A parsed TOML value (`rtoml.loads` output): string, number, boolean,
table or array.  Tables are insertion-ordered key/value lists, as Python
dicts are. -/
inductive Value where
  | vStr (s : String)
  | vNum (n : Int)
  | vBool (b : Bool)
  | vTable (entries : List (String × Value))
  | vArr (items : List Value)

/-- Python `type(v).__name__` for a parsed TOML value. -/
def Value.typeName : Value → String
  | .vStr _ => "str"
  | .vNum _ => "int"
  | .vBool _ => "bool"
  | .vTable _ => "dict"
  | .vArr _ => "list"

/-- A source position (line/character), as in `lsprotocol.types.Position`. -/
structure Position where
  line : Nat
  character : Nat
deriving DecidableEq, Repr

/-- Lexicographic `<` on positions (`lsprotocol` attrs ordering). -/
def Position.ltb (a b : Position) : Bool :=
  a.line < b.line || (a.line == b.line && a.character < b.character)

/-- Lexicographic `≤` on positions. -/
def Position.leb (a b : Position) : Bool :=
  a.line < b.line || (a.line == b.line && a.character ≤ b.character)

/-- A source range, as in `lsprotocol.types.Range`.  The second field is
called `end` in the source, which is a reserved word in Lean; it is
embedded as `stop`. -/
structure Range where
  start : Position
  stop : Position
deriving DecidableEq, Repr

/-- Diagnostic severity; `validate_config` only ever uses `Error` and
`Warning`. -/
inductive DiagnosticSeverity where
  | error
  | warning
deriving DecidableEq, Repr

/-- An `lsprotocol.types.Diagnostic` as constructed by `validate_config`
(range, message, severity, source). -/
structure Diagnostic where
  range : Range
  message : String
  severity : DiagnosticSeverity
  source : String
deriving DecidableEq, Repr

deriving instance DecidableEq for Except

/-- Every diagnostic in `validate_config` is built with
`source="confit-lsp"`. -/
def mkDiag (range : Range) (message : String) (severity : DiagnosticSeverity) :
    Diagnostic :=
  { range := range, message := message, severity := severity, source := "confit-lsp" }

/-! ## Diagnostic messages (f-strings from `main.py`, lines 107-249) -/

/-- Message of the duplicate-binding structural diagnostic (main.py:114). -/
def dupMsg : String := "An object can reference a single factory element at most."

/-- Message of the non-string-marker structural diagnostic (main.py:128). -/
def nonStringMsg (tyName : String) : String :=
  "Element value must be a string, got " ++ tyName

/-- Message of the unknown-factory structural diagnostic (main.py:139). -/
def notFoundMsg (name : String) : String :=
  "Element '" ++ name ++ "' not found in the registry."

/-- Message of the unknown-field warning (main.py:168). -/
def extraMsg (key fname : String) : String :=
  "Argument `" ++ key ++ "` is not recognized by `" ++ fname ++ "` and will be ignored."

/-- Message of the missing-required-field error (main.py:180). -/
def missingMsg (key : String) : String :=
  "Argument `" ++ key ++ "` is missing."

/-- Message of the unresolved-reference error (main.py:202). -/
def unresolvedMsg : String := "No element with this key exists."

/-- Name used for a Python type in the mismatch message (`__qualname__`). -/
inductive PyType where
  | any
  | float
  | int
  | str
  | bool
  | httpUrl
deriving DecidableEq, Repr

/-- `t.__qualname__` (on Python ≥ 3.11 `typing.Any` is a class named `Any`). -/
def PyType.qualname : PyType → String
  | .any => "Any"
  | .float => "float"
  | .int => "int"
  | .str => "str"
  | .bool => "bool"
  | .httpUrl => "HttpUrl"

/-- Message of the sub-factory type-mismatch error (main.py:225-228). -/
def mismatchMsg (key : String) (expected actual : PyType) : String :=
  "Argument `" ++ key ++ "` is provided by a factory with incompatible type.\nExpected `"
    ++ expected.qualname ++ "`, got `" ++ actual.qualname ++ "`."

/-- Message of the per-field type error (main.py:245). -/
def typeErrMsg (key msg : String) : String :=
  "Argument `" ++ key ++ "` has incompatible type.\n" ++ msg

/-! ## Python dict and set embedding -/

/-- Python `d.get(k)` on an insertion-ordered dict. -/
def alistGet {α β : Type} [DecidableEq α] : List (α × β) → α → Option β
  | [], _ => none
  | (k, v) :: rest, key => if k = key then some v else alistGet rest key

/-- Python `d[k]`: raises `KeyError` when the key is absent. -/
def pyGet {α β : Type} [DecidableEq α] (l : List (α × β)) (k : α) : Except PyErr β :=
  match alistGet l k with
  | some v => .ok v
  | none => .error .keyError

/-- Python `d[k] = v`: replaces in place or appends. -/
def alistSet {α β : Type} [DecidableEq α] : List (α × β) → α → β → List (α × β)
  | [], k, v => [(k, v)]
  | (k0, v0) :: rest, k, v =>
      if k0 = k then (k0, v) :: rest else (k0, v0) :: alistSet rest k v

/-- The elements of the Python set difference `set xs - set ys`, in the
insertion order of `xs` (the set's iteration order is applied separately
via the `setIter` oracle). -/
def pySetDiff (xs ys : List String) : List String :=
  xs.filter (fun x => !(ys.contains x))

/-- The elements of the Python set intersection `set xs & set ys`, in the
insertion order of `xs`. -/
def pySetInter (xs ys : List String) : List String :=
  xs.filter (fun x => ys.contains x)

/-- An admissible Python set iteration order: it may only permute the
underlying elements. -/
def ValidOrder (setIter : List String → List String) : Prop :=
  ∀ xs : List String, (setIter xs).Perm xs

/-! ## Document model -/

/-- Python `d[key]` indexing of a parsed TOML value: missing table key
raises `KeyError`; indexing a non-table with a string key raises
`TypeError` (`descriptor.py` `get_object` does `d = d[key]`). -/
def Value.pyIndex : Value → String → Except PyErr Value
  | .vTable es, k => pyGet es k
  | _, _ => .error .typeError

/-- `ConfigurationView` (`descriptor.py` / the packaged document model):
the parsed data tree plus the per-path key/value source ranges, the
document-order element list, and the reference map `path ↦ target path`
for values written in the path-reference syntax.  `elements`, `keys`,
`values` and `references` are produced by the parser collaborator
(`parsers.toml.parse_toml`, not in the repository); they are carried as
data, in document traversal order. -/
structure ConfigurationView where
  data : Value
  elements : List ElementPath
  keys : List (ElementPath × Range)
  values : List (ElementPath × Range)
  references : List (ElementPath × ElementPath)

/-- `ConfigurationView.get_object` (descriptor.py:26-37): walk the raw
tree with `d = d[key]`. -/
def ConfigurationView.get_object (view : ConfigurationView) (path : ElementPath) :
    Except PyErr Value :=
  path.foldlM Value.pyIndex view.data

/-- `ConfigurationView.get_value` (descriptor.py:23-24):
`get_object(path[:-1])[path[-1]]`.  `path[-1]` on an empty tuple raises
`IndexError`. -/
def ConfigurationView.get_value (view : ConfigurationView) (path : ElementPath) :
    Except PyErr Value :=
  match path.getLast? with
  | none => .error .indexError
  | some k => do
      let obj ← view.get_object path.dropLast
      obj.pyIndex k

/-- Modelled from the spec (§4.3 Factory Matcher) and the repository's
`test_document_view.py`: `view.factories(markers)` yields, in document
traversal order, every element path whose last segment is a marker key. -/
def ConfigurationView.factories (view : ConfigurationView) (markers : List String) :
    List ElementPath :=
  view.elements.filter (fun p =>
    match p.getLast? with
    | some k => markers.contains k
    | none => false)

/-- An `lsprotocol.types.Location`: document URI plus range. -/
structure Location where
  uri : String
  range : Range
deriving DecidableEq, Repr

/-! ## Schema introspection (`inspection/pydantic.py` and `capabilities.FunctionDescription`) -/

/-- One parameter of a registered Python callable, as seen by
`inspect.signature` and `typing.get_type_hints`: name, optional type
hint, and whether the parameter has a default value. -/
structure Param where
  name : String
  hint : Option PyType
  hasDefault : Bool
deriving DecidableEq, Repr

/-- A registry entry: a Python callable together with the metadata the
schema provider extracts from it. -/
structure PyFunction where
  params : List Param
  /-- `type_hints.get("return")`: `none` when the return type is unannotated. -/
  returnHint : Option PyType
  docstring : Option String
  sourceLocation : Option Location
deriving DecidableEq, Repr

/-- A pydantic model field built by `get_pydantic_input_model`
(inspection/pydantic.py:28-38): the annotated type (or `Any` when the
hint is missing), and `is_required() = (default is empty)`. -/
structure FieldInfo where
  /-- `field_info.annotation` in the source. -/
  annot : PyType
  hasDefault : Bool
deriving DecidableEq, Repr

/-- `pydantic.fields.FieldInfo.is_required`: a field is required exactly
when it has no default (inspection/pydantic.py:33-38). -/
def FieldInfo.is_required (info : FieldInfo) : Bool := !info.hasDefault

/-- `capabilities.FunctionDescription`: name, the input model's ordered
fields (`input_model.model_fields`), the return type, docstring and
source location.  The class itself is not under `src/`; its fields are
reconstructed from `get_pydantic_input_model` (which is) and the spec's
FactorySchema (§3). -/
structure FunctionDescription where
  name : String
  fields : List (String × FieldInfo)
  return_type : Option PyType
  docstring : Option String
  sourceLocation : Option Location
deriving DecidableEq, Repr

/-- `FunctionDescription.from_function(name, func)`: build the input
model from the signature per `get_pydantic_input_model`
(inspection/pydantic.py): each parameter's type is its hint or `Any`,
required iff it has no default; the return type is
`type_hints.get("return")`. -/
def FunctionDescription.from_function (name : String) (fn : PyFunction) :
    FunctionDescription :=
  { name := name
    fields := fn.params.map (fun p => (p.name, { annot := p.hint.getD .any, hasDefault := p.hasDefault }))
    return_type := fn.returnHint
    docstring := fn.docstring
    sourceLocation := fn.sourceLocation }

/-- Modelled from the spec: the external type-checking capability
(§4.4.3, `pydantic.TypeAdapter(annotation).validate_python(value)` in
main.py:236-237).  Returns the list of violation messages
(`e.errors()[i]["msg"]`), empty when the value validates; nominal rules
only (pydantic's lax numeric-string coercions are not modelled, and URL
well-formedness is not checked). -/
def validatePython (t : PyType) (v : Value) : List String :=
  match t, v with
  | .any, _ => []
  | .float, .vNum _ => []
  | .float, _ => ["Input should be a valid number"]
  | .int, .vNum _ => []
  | .int, _ => ["Input should be a valid integer"]
  | .str, .vStr _ => []
  | .str, _ => ["Input should be a valid string"]
  | .bool, .vBool _ => []
  | .bool, _ => ["Input should be a valid boolean"]
  | .httpUrl, .vStr _ => []
  | .httpUrl, _ => ["URL input should be a string or URL"]

/-! ## validate_config, phase 1: factory matching (main.py:102-149) -/

/-- The mutable state of the first loop of `validate_config`: the
`roots` dict (object path ↦ first-seen marker path), the `factories`
dict (marker path ↦ description) and the diagnostics collected so far.
All three are insertion-ordered. -/
structure MatchState where
  roots : List (ElementPath × ElementPath)
  factories : List (ElementPath × FunctionDescription)
  diagnostics : List Diagnostic
deriving DecidableEq, Repr

/-- The duplicate-binding check of the first loop (main.py:110-120): if
the parent object path already has a recorded binding, append the
duplicate diagnostic at the marker's key range; otherwise record the
marker as the object's binding in `roots`. -/
def markDuplicate (view : ConfigurationView) (st : MatchState) (path : ElementPath) :
    Except PyErr MatchState :=
  if (alistGet st.roots path.dropLast).isSome then do
    let kr ← pyGet view.keys path
    pure { st with diagnostics := st.diagnostics ++ [mkDiag kr dupMsg .error] }
  else
    pure { st with roots := st.roots ++ [(path.dropLast, path)] }

/-- The marker-value check of the first loop (main.py:122-149): the
marker's value must be a string naming a registered factory, in which
case the binding is recorded in `factories`; otherwise a structural
diagnostic is appended at the marker's value range and the marker is
skipped. -/
def recordBinding (view : ConfigurationView) (registry : List (String × PyFunction))
    (st : MatchState) (path : ElementPath) (location : Range) : Except PyErr MatchState := do
  let factory_name ← view.get_value path
  match factory_name with
  | .vStr s =>
      match alistGet registry s with
      | some fn =>
          pure { st with factories := st.factories ++ [(path, FunctionDescription.from_function s fn)] }
      | none =>
          pure { st with diagnostics := st.diagnostics ++ [mkDiag location (notFoundMsg s) .error] }
  | v =>
      pure { st with diagnostics := st.diagnostics ++ [mkDiag location (nonStringMsg v.typeName) .error] }

/-- One iteration of the first loop of `validate_config`
(main.py:107-149) for marker element `path`: look up the value range,
flag a duplicate binding (keeping the first-seen marker in `roots`),
then check the marker's value and record the binding. -/
def processMarker (view : ConfigurationView) (registry : List (String × PyFunction))
    (st : MatchState) (path : ElementPath) : Except PyErr MatchState := do
  let location ← pyGet view.values path
  let st ← markDuplicate view st path
  recordBinding view registry st path location

/-- The first loop of `validate_config` over `view.factories(markers)`. -/
def phase1 (view : ConfigurationView) (registry : List (String × PyFunction))
    (markers : List String) : Except PyErr MatchState :=
  (view.factories markers).foldlM (processMarker view registry) ⟨[], [], []⟩

/-! ## validate_config, phase 2: per-binding schema checks (main.py:151-249) -/

/-- `mapE f l` runs `f` on each element in order, short-circuiting on the
first raised exception, and collects the results — a Python `for` loop
appending one result per iteration. -/
def mapE {α β : Type} (f : α → Except PyErr β) : List α → Except PyErr (List β)
  | [] => .ok []
  | a :: as => do
      let b ← f a
      let bs ← mapE f as
      pure (b :: bs)

/-- The sub-factory comparison (main.py:210-233): when the (possibly
substituted) path is the object path of a recorded binding whose factory
matched, the result is the diagnostics of the return-type comparison
(empty when skipped); `none` means the field is not provided by a
sub-factory and falls through to the type adapter. -/
def subFactoryCheck (roots : List (ElementPath × ElementPath))
    (factories : List (ElementPath × FunctionDescription))
    (factory_element : Range) (key : String) (info : FieldInfo)
    (total_path : ElementPath) : Option (List Diagnostic) := do
  let subfactory_path ← alistGet roots total_path
  let sub ← alistGet factories subfactory_path
  match sub.return_type with
  | none => pure []
  | some rt =>
      if info.annot = .any then pure []
      else if rt ≠ info.annot then
        pure [mkDiag factory_element (mismatchMsg key info.annot rt) .error]
      else pure []

/-- The plain-value type check (main.py:235-249): validate the raw
`value` with `TypeAdapter(info.annotation)`; on violations, look up
`total_path`'s key element and anchor one error per violation there. -/
def typeAdapterCheck (view : ConfigurationView) (key : String) (info : FieldInfo)
    (value : Value) (total_path : ElementPath) : Except PyErr (List Diagnostic) :=
  match validatePython info.annot value with
  | [] => .ok []
  | msgs => do
      let element ← pyGet view.keys total_path
      pure (msgs.map (fun m => mkDiag element (typeErrMsg key m) .error))

/-- The tail of the field check after reference substitution
(main.py:210-249), operating at `total_path`. -/
def checkFieldAt (view : ConfigurationView)
    (roots : List (ElementPath × ElementPath))
    (factories : List (ElementPath × FunctionDescription))
    (factory_element : Range) (key : String) (info : FieldInfo) (value : Value)
    (total_path : ElementPath) : Except PyErr (List Diagnostic) :=
  match subFactoryCheck roots factories factory_element key info total_path with
  | some ds => .ok ds
  | none => typeAdapterCheck view key info value total_path

/-- One iteration of the field loop (main.py:186-249) for field `key` of
the object at `root_path`: fetch the field info and raw value, resolve a
reference if the field is one (a dangling reference is reported at the
field's key element and ends the field's checks; a reference whose
target lookup raises anything but `KeyError` propagates the exception),
then continue at the (possibly substituted) path. -/
def checkField (view : ConfigurationView)
    (roots : List (ElementPath × ElementPath))
    (factories : List (ElementPath × FunctionDescription))
    (factory : FunctionDescription) (factory_element : Range)
    (root_path : ElementPath) (root : List (String × Value))
    (key : String) : Except PyErr (List Diagnostic) := do
  let info ← pyGet factory.fields key
  let value ← pyGet root key
  let total_path := root_path ++ [key]
  match alistGet view.references total_path with
  | some target => do
      let element ← pyGet view.keys total_path
      match view.get_value target with
      | .error .keyError => pure [mkDiag element unresolvedMsg .error]
      | .error e => .error e
      | .ok _ => checkFieldAt view roots factories factory_element key info value target
  | none => checkFieldAt view roots factories factory_element key info value total_path

/-- The field-level part of the second loop of `validate_config`
(main.py:154-249), given the bound object's entries `root`:
unknown-field warnings, missing required-field errors anchored at the
marker's key element, then the per-field checks.  Set iterations go
through the `setIter` oracle. -/
def checkBindingFields (view : ConfigurationView) (markers : List String)
    (roots : List (ElementPath × ElementPath))
    (factories : List (ElementPath × FunctionDescription))
    (setIter : List String → List String)
    (path : ElementPath) (factory : FunctionDescription)
    (root : List (String × Value)) : Except PyErr (List Diagnostic) := do
  let root_path := path.dropLast
  let root_keys := pySetDiff (root.map Prod.fst) markers
  let model_keys := factory.fields.map Prod.fst
  let extraDiags ← mapE (fun key => do
      let kr ← pyGet view.keys (root_path ++ [key])
      pure (mkDiag kr (extraMsg key factory.name) .warning))
    (setIter (pySetDiff root_keys model_keys))
  let factory_element ← pyGet view.keys path
  let required_model_keys := (factory.fields.filter (fun f => f.2.is_required)).map Prod.fst
  let missingDiags := (setIter (pySetDiff required_model_keys root_keys)).map
    (fun key => mkDiag factory_element (missingMsg key) .error)
  let fieldChunks ← mapE (checkField view roots factories factory factory_element root_path root)
    (setIter (pySetInter root_keys model_keys))
  pure (extraDiags ++ missingDiags ++ fieldChunks.flatten)

/-- The body of the second loop of `validate_config` (main.py:151-249)
for the binding `(path, factory)`: fetch the bound object
(`root.copy()` then `root.keys()` raise AttributeError on a non-dict)
and run the field-level checks. -/
def checkBinding (view : ConfigurationView) (markers : List String)
    (roots : List (ElementPath × ElementPath))
    (factories : List (ElementPath × FunctionDescription))
    (setIter : List String → List String)
    (path : ElementPath) (factory : FunctionDescription) :
    Except PyErr (List Diagnostic) := do
  let rootv ← view.get_object path.dropLast
  let root ← match rootv with
    | .vTable es => pure es
    | _ => .error .attributeError
  checkBindingFields view markers roots factories setIter path factory root

/-- `ConfitLanguageServer.validate_config` (main.py:99-251).  The global
`REGISTRY` and `self.markers` are passed explicitly; `setIter` is the
Python set iteration order oracle. -/
def validateConfig (registry : List (String × PyFunction)) (markers : List String)
    (setIter : List String → List String) (view : ConfigurationView) :
    Except PyErr (List Diagnostic) := do
  let st ← phase1 view registry markers
  let chunks ← mapE (fun pf => checkBinding view markers st.roots st.factories setIter pf.1 pf.2)
    st.factories
  pure (st.diagnostics ++ chunks.flatten)

/-- The bindings that one marker contributes to the `factories` dict:
one entry when the marker's value is a string naming a registered
factory, none otherwise. -/
def newFactories (view : ConfigurationView) (registry : List (String × PyFunction))
    (path : ElementPath) : List (ElementPath × FunctionDescription) :=
  match view.get_value path with
  | .ok (.vStr s) =>
      match alistGet registry s with
      | some fn => [(path, FunctionDescription.from_function s fn)]
      | none => []
  | _ => []

/-! ## Parsing and the server handlers (main.py:77-97, 254-524) -/

/-- Modelled from the spec (§6): the external TOML parser collaborator.
A source text is either malformed — `rtoml.loads` raises — or parses to
a `ConfigurationView`'s ingredients. -/
inductive Source where
  | malformed (msg : String)
  | wellFormed (view : ConfigurationView)

/-- `ConfigurationView.from_source` (descriptor.py:39-47): `rtoml.loads`
raises `TomlParsingError` on malformed input; there is no error handling
around it, so the exception propagates.  On success the view is
assembled from the parser output. -/
def ConfigurationView.from_source : Source → Except PyErr ConfigurationView
  | .malformed _ => .error .parseError
  | .wellFormed view => .ok view

/-- A `pygls.workspace.TextDocument`: URI and source text. -/
structure TextDocument where
  uri : String
  source : Source

/-- Python `str.endswith`. -/
def pyEndsWith (s suffix : String) : Bool :=
  suffix.data.isSuffixOf s.data

/-- The server's view cache `self._views : dict[str, tuple[int, ConfigurationView]]`. -/
abbrev ViewCache := List (String × (Nat × ConfigurationView))

/-- `ConfitLanguageServer.parse` (main.py:77-97): return the cached view
when the URI is cached with an unchanged content hash; return `None` for
URIs not ending in `.toml`; otherwise build the view from source (an
exception from `from_source` propagates) and cache it.  `hashFn` stands
for Python's opaque `hash`; the updated cache is returned alongside. -/
def parse (hashFn : Source → Nat) (views : ViewCache) (text_document : TextDocument) :
    Except PyErr (Option ConfigurationView × ViewCache) :=
  let uri := text_document.uri
  let source := text_document.source
  let source_hash := hashFn source
  let cached := match alistGet views uri with
    | some hv => if hv.1 = source_hash then some hv.2 else none
    | none => none
  match cached with
  | some view => .ok (some view, views)
  | none =>
      if !(pyEndsWith uri ".toml") then .ok (none, views)
      else do
        let view ← ConfigurationView.from_source source
        .ok (some view, alistSet views uri (source_hash, view))

/-- An `lsprotocol.types.PublishDiagnosticsParams` payload. -/
structure PublishDiagnosticsParams where
  uri : String
  diagnostics : List Diagnostic
deriving DecidableEq, Repr

/-- `did_open` (main.py:263-278): parse the document; when no view is
produced, publish nothing; otherwise publish the validation
diagnostics.  The result is the published payload, if any. -/
def did_open (hashFn : Source → Nat) (registry : List (String × PyFunction))
    (markers : List String) (setIter : List String → List String)
    (views : ViewCache) (doc : TextDocument) :
    Except PyErr (Option PublishDiagnosticsParams × ViewCache) := do
  let (view?, views') ← parse hashFn views doc
  match view? with
  | none => .ok (none, views')
  | some view => do
      let diagnostics ← validateConfig registry markers setIter view
      .ok (some ⟨doc.uri, diagnostics⟩, views')

/-- `did_save` (main.py:281-295): identical to `did_open`. -/
def did_save (hashFn : Source → Nat) (registry : List (String × PyFunction))
    (markers : List String) (setIter : List String → List String)
    (views : ViewCache) (doc : TextDocument) :
    Except PyErr (Option PublishDiagnosticsParams × ViewCache) := do
  let (view?, views') ← parse hashFn views doc
  match view? with
  | none => .ok (none, views')
  | some view => do
      let diagnostics ← validateConfig registry markers setIter view
      .ok (some ⟨doc.uri, diagnostics⟩, views')

/-- Whether an element was hit through its key range or its value range. -/
inductive ElemKind where
  | key
  | value
deriving DecidableEq, Repr

/-- Half-open containment of a position in a range. -/
def rangeContainsPos (r : Range) (p : Position) : Bool :=
  Position.leb r.start p && Position.ltb p r.stop

/-- Modelled from the spec (§4.1 `elementAt`): resolve a cursor position
to the most specific element whose key or value range contains it — the
last hit in document traversal order — tagged with which range was hit. -/
def ConfigurationView.get_element_from_position (view : ConfigurationView)
    (pos : Position) : Option (ElemKind × ElementPath) :=
  view.elements.foldl (fun acc path =>
    if (match alistGet view.keys path with
        | some kr => rangeContainsPos kr pos
        | none => false) then some (.key, path)
    else if (match alistGet view.values path with
        | some vr => rangeContainsPos vr pos
        | none => false) then some (.value, path)
    else acc) none

/-- Python `str(v)` for a parsed TOML value; the table/array renderings
are placeholders (no handler output depends on them). -/
def pyStr : Value → String
  | .vStr s => s
  | .vNum n => toString n
  | .vBool true => "True"
  | .vBool false => "False"
  | .vTable _ => "\x7b...\x7d"
  | .vArr _ => "[...]"

/-- Python `str(x)` for an `Optional[str]` interpolated in an f-string. -/
def optStr : Option String → String
  | some s => s
  | none => "None"

/-- Python `a or b` for an `Optional[str]` (`None` and `""` are falsy). -/
def pyOrStr (o : Option String) (d : String) : String :=
  match o with
  | some s => if s = "" then d else s
  | none => d

/-- Python `str(t)` for a type object interpolated in an f-string. -/
def PyType.pyRepr : PyType → String
  | .any => "typing.Any"
  | .float => "<class 'float'>"
  | .int => "<class 'int'>"
  | .str => "<class 'str'>"
  | .bool => "<class 'bool'>"
  | .httpUrl => "<class 'pydantic.networks.HttpUrl'>"

/-- An `lsprotocol.types.MarkupContent` (always Markdown here). -/
structure MarkupContent where
  value : String
deriving DecidableEq, Repr

/-- An `lsprotocol.types.Hover`. -/
structure Hover where
  contents : MarkupContent
deriving DecidableEq, Repr

/-- Modelled from the spec: a `confit_lsp.settings.Registry` is callable
with the marker's raw value and yields the registered callable or
`None`; `self.registries` maps each marker key to its registry. -/
abbrev Registries := List (String × (Value → Option PyFunction))

/-- `hover` (main.py:312-363): resolve the cursor to an element, fetch
the enclosing object, look the hit key's value up in the marker's
registry (note `ls.registries[key]` raises `KeyError` when the hit key
is not a registry name), and render factory or field documentation. -/
def hover (hashFn : Source → Nat) (registries : Registries) (markers : List String)
    (views : ViewCache) (doc : TextDocument) (pos : Position) :
    Except PyErr (Option Hover × ViewCache) := do
  let (view?, views') ← parse hashFn views doc
  match view? with
  | none => .ok (none, views')
  | some view =>
      match view.get_element_from_position pos with
      | none => .ok (none, views')
      | some elt =>
          -- `_, path = element; *path, key = path`
          match elt.2.getLast? with
          | none => .error .valueError
          | some key => do
              let rootv ← view.get_object elt.2.dropLast
              let factory_name? ←
                (match rootv with
                 | .vTable es => .ok (alistGet es key)
                 | _ => (.error .attributeError : Except PyErr (Option Value)))
              match factory_name? with
              | none => .ok (none, views')
              | some factory_name => do
                  let reg ← pyGet registries key
                  match reg factory_name with
                  | none => .ok (none, views')
                  | some factory =>
                      let description :=
                        FunctionDescription.from_function (pyStr factory_name) factory
                      if key ∈ markers then
                        .ok (some ⟨⟨"**Factory: " ++ pyStr factory_name ++ "**\n\n" ++
                          optStr description.docstring⟩⟩, views')
                      else
                        match alistGet description.fields key with
                        | none => .ok (none, views')
                        | some field_info =>
                            .ok (some ⟨⟨"**Field: " ++ key ++ "**\n\n" ++
                              field_info.annot.pyRepr⟩⟩, views')

/-- `definition` (main.py:366-406): on a value hit, a reference jumps to
the target's key range; a marker value jumps to the factory's source
location.  (The source's `if factory_name is None` check is vacuous for
parsed TOML data and is not represented.) -/
def definition (hashFn : Source → Nat) (registries : Registries) (markers : List String)
    (views : ViewCache) (doc : TextDocument) (pos : Position) :
    Except PyErr (Option Location × ViewCache) := do
  let (view?, views') ← parse hashFn views doc
  match view? with
  | none => .ok (none, views')
  | some view =>
      match view.get_element_from_position pos with
      | some (.value, path) => do
          match alistGet view.references path with
          | some target => do
              let kr ← pyGet view.keys target
              .ok (some ⟨doc.uri, kr⟩, views')
          | none =>
              match path.getLast? with
              | none => .error .indexError
              | some last =>
                  if last ∉ markers then .ok (none, views')
                  else do
                    let factory_name ← view.get_value path
                    let reg ← pyGet registries last
                    match reg factory_name with
                    | none => .ok (none, views')
                    | some factory =>
                        let description :=
                          FunctionDescription.from_function (pyStr factory_name) factory
                        .ok (description.sourceLocation, views')
      | _ => .ok (none, views')

/-- An `lsprotocol.types.CompletionItem` as built by `completion`. -/
structure CompletionItem where
  label : String
  detail : Option String
  documentation : String
  insert_text : String
deriving DecidableEq, Repr

/-- An `lsprotocol.types.CompletionList`. -/
structure CompletionList where
  is_incomplete : Bool
  items : List CompletionItem
deriving DecidableEq, Repr

/-- `completion` (main.py:409-458): only on the value of a key literally
named `factory`; offers every registered factory with a truncated doc
preview. -/
def completion (hashFn : Source → Nat) (registry : List (String × PyFunction))
    (views : ViewCache) (doc : TextDocument) (pos : Position) :
    Except PyErr (Option CompletionList × ViewCache) := do
  let (view?, views') ← parse hashFn views doc
  match view? with
  | none => .ok (none, views')
  | some view =>
      match view.get_element_from_position pos with
      | some (.value, path) =>
          match path.getLast? with
          | none => .error .valueError
          | some key =>
              if key ≠ "factory" then .ok (none, views')
              else
                let items := registry.map (fun nf =>
                  let description := FunctionDescription.from_function nf.1 nf.2
                  let docstring := pyOrStr description.docstring "N/A"
                  { label := nf.1
                    detail := if docstring.length > 50 then some (docstring.take 50 ++ "...")
                              else description.docstring
                    documentation := "**" ++ nf.1 ++ "**\n\n" ++ optStr description.docstring
                    insert_text := nf.1 })
                .ok (some ⟨false, items⟩, views')
      | _ => .ok (none, views')

/-- An `lsprotocol.types.InlayHint` as built by `inlay_hints`. -/
structure InlayHint where
  label : String
  position : Position
deriving DecidableEq, Repr

/-- Python `REGISTRY.get(factory_name)` where `factory_name` is a raw
TOML value: unhashable values (dict, list) raise `TypeError`; hashable
non-string values simply miss. -/
def registryGetValue (registry : List (String × PyFunction)) : Value → Except PyErr (Option PyFunction)
  | .vStr s => .ok (alistGet registry s)
  | .vTable _ => .error .typeError
  | .vArr _ => .error .typeError
  | .vNum _ => .ok none
  | .vBool _ => .ok none

/-- `inlay_hints` (main.py:461-524): build the bindings map, then for
every key element overlapping the requested range and belonging to a
binding, emit a type label at the end of the element's range
(`annotation.__name__` exists for every modelled type, so the fallback
branch is not taken). -/
def inlay_hints (hashFn : Source → Nat) (registry : List (String × PyFunction))
    (registries : Registries) (views : ViewCache) (doc : TextDocument)
    (start stop : Position) :
    Except PyErr (Option (List InlayHint) × ViewCache) := do
  let (view?, views') ← parse hashFn views doc
  match view? with
  | none => .ok (none, views')
  | some view => do
      let factories ← (view.factories (registries.map Prod.fst)).foldlM
        (fun acc path => do
          let factory_name ← view.get_value path
          let factory? ← registryGetValue registry factory_name
          match factory? with
          | none => .ok acc
          | some factory =>
              .ok (alistSet acc path.dropLast
                (FunctionDescription.from_function (pyStr factory_name) factory)))
        ([] : List (ElementPath × FunctionDescription))
      let hints := view.keys.foldl (fun hints pk =>
        if Position.ltb stop pk.2.start || Position.ltb pk.2.stop start then hints
        else
          match pk.1.getLast? with
          | none => hints
          | some key =>
              if key ∈ registries.map Prod.fst then hints
              else
                match alistGet factories pk.1.dropLast with
                | none => hints
                | some factory =>
                    match alistGet factory.fields key with
                    | none => hints
                    | some field_info =>
                        hints ++ [⟨": " ++ field_info.annot.qualname, pk.2.stop⟩])
        ([] : List InlayHint)
      .ok (some hints, views')

/-- A stand-in for Python's opaque `hash` in concrete instances. -/
def hash0 : Source → Nat := fun _ => 0

/-! ## Concrete test documents and registries

The registries below correspond to `confit_factories/factories.py`-style
registered functions; the views are parser outputs for small TOML
documents, with plausible source ranges. -/

/-- Shorthand for a source range. -/
def rg (l1 c1 l2 c2 : Nat) : Range := ⟨⟨l1, c1⟩, ⟨l2, c2⟩⟩

/-- `add(a: float, b: float) -> float` (factories.py). -/
def addFn : PyFunction :=
  { params := [⟨"a", some .float, false⟩, ⟨"b", some .float, false⟩]
    returnHint := some .float
    docstring := some "Add two numbers together."
    sourceLocation := none }

/-- `multiply(a: float, b: float = 1.0) -> float` (factories.py). -/
def multiplyFn : PyFunction :=
  { params := [⟨"a", some .float, false⟩, ⟨"b", some .float, true⟩]
    returnHint := some .float
    docstring := some "Multiply two numbers together."
    sourceLocation := none }

/-- `wrap(input: float) -> float`: a single-argument consumer. -/
def wrapFloatFn : PyFunction :=
  { params := [⟨"input", some .float, false⟩]
    returnHint := some .float
    docstring := none
    sourceLocation := none }

/-- `wrap_any(input: Any)`: consumer with an `Any`-annotated field. -/
def wrapAnyFn : PyFunction :=
  { params := [⟨"input", some .any, false⟩]
    returnHint := none
    docstring := none
    sourceLocation := none }

/-- `anyret(x: float) -> Any`: a factory whose return annotation is
`typing.Any`. -/
def anyRetFn : PyFunction :=
  { params := [⟨"x", some .float, false⟩]
    returnHint := some .any
    docstring := none
    sourceLocation := none }

/-- `wrap2(input: float, other: float) -> float`: two-argument consumer. -/
def wrap2Fn : PyFunction :=
  { params := [⟨"input", some .float, false⟩, ⟨"other", some .float, false⟩]
    returnHint := some .float
    docstring := none
    sourceLocation := none }

/-- The registry used by the concrete documents. -/
def testRegistry : List (String × PyFunction) :=
  [("add", addFn), ("multiply", multiplyFn), ("wrap", wrapFloatFn),
   ("wrap_any", wrapAnyFn), ("anyret", anyRetFn), ("wrap2", wrap2Fn)]

/-- The default marker set (`Settings().factories` has the single
registry named `factory`). -/
def markers1 : List String := ["factory"]

/-- A marker set with two marker keys, as in the spec's builder/validator
roles (§3). -/
def markers2 : List String := ["factory", "builder"]

/-- `{a: {factory: "add", a: 1}}` — the spec's missing-required scenario:
```
[a]
factory = "add"
a = 1
```
-/
def viewMissingB : ConfigurationView :=
  { data := .vTable [("a", .vTable [("factory", .vStr "add"), ("a", .vNum 1)])]
    elements := [["a"], ["a", "factory"], ["a", "a"]]
    keys := [(["a"], rg 0 1 0 2), (["a", "factory"], rg 1 0 1 7), (["a", "a"], rg 2 0 2 1)]
    values := [(["a", "factory"], rg 1 10 1 15), (["a", "a"], rg 2 4 2 5)]
    references := [] }

/-- An object with two marker keys, both naming registered factories:
```
[a]
factory = "add"
builder = "add"
```
-/
def viewDupValid : ConfigurationView :=
  { data := .vTable [("a", .vTable [("factory", .vStr "add"), ("builder", .vStr "add")])]
    elements := [["a"], ["a", "factory"], ["a", "builder"]]
    keys := [(["a"], rg 0 1 0 2), (["a", "factory"], rg 1 0 1 7), (["a", "builder"], rg 2 0 2 7)]
    values := [(["a", "factory"], rg 1 10 1 15), (["a", "builder"], rg 2 10 2 15)]
    references := [] }

/-- An object with two marker keys whose second value is not a string:
```
[a]
factory = "add"
builder = 3
```
-/
def viewDupNonString : ConfigurationView :=
  { data := .vTable [("a", .vTable [("factory", .vStr "add"), ("builder", .vNum 3)])]
    elements := [["a"], ["a", "factory"], ["a", "builder"]]
    keys := [(["a"], rg 0 1 0 2), (["a", "factory"], rg 1 0 1 7), (["a", "builder"], rg 2 0 2 7)]
    values := [(["a", "factory"], rg 1 10 1 15), (["a", "builder"], rg 2 10 2 11)]
    references := [] }

/-- An `Any`-typed field provided by a nested sub-factory returning `float`:
```
[c]
factory = "wrap_any"

[c.input]
factory = "add"
a = 1
b = 2
```
-/
def viewNestedAnyField : ConfigurationView :=
  { data := .vTable [("c", .vTable [("factory", .vStr "wrap_any"),
      ("input", .vTable [("factory", .vStr "add"), ("a", .vNum 1), ("b", .vNum 2)])])]
    elements := [["c"], ["c", "factory"], ["c", "input"], ["c", "input", "factory"],
      ["c", "input", "a"], ["c", "input", "b"]]
    keys := [(["c"], rg 0 1 0 2), (["c", "factory"], rg 1 0 1 7),
      (["c", "input"], rg 3 1 3 8), (["c", "input", "factory"], rg 4 0 4 7),
      (["c", "input", "a"], rg 5 0 5 1), (["c", "input", "b"], rg 6 0 6 1)]
    values := [(["c", "factory"], rg 1 10 1 20), (["c", "input", "factory"], rg 4 10 4 15),
      (["c", "input", "a"], rg 5 4 5 5), (["c", "input", "b"], rg 6 4 6 5)]
    references := [] }

/-- A `float`-typed field provided by a nested sub-factory whose return
annotation is `typing.Any`:
```
[c]
factory = "wrap"

[c.input]
factory = "anyret"
x = 1
```
-/
def viewNestedAnyReturn : ConfigurationView :=
  { data := .vTable [("c", .vTable [("factory", .vStr "wrap"),
      ("input", .vTable [("factory", .vStr "anyret"), ("x", .vNum 1)])])]
    elements := [["c"], ["c", "factory"], ["c", "input"], ["c", "input", "factory"],
      ["c", "input", "x"]]
    keys := [(["c"], rg 0 1 0 2), (["c", "factory"], rg 1 0 1 7),
      (["c", "input"], rg 3 1 3 8), (["c", "input", "factory"], rg 4 0 4 7),
      (["c", "input", "x"], rg 5 0 5 1)]
    values := [(["c", "factory"], rg 1 10 1 16), (["c", "input", "factory"], rg 4 10 4 18),
      (["c", "input", "x"], rg 5 4 5 5)]
    references := [] }

/-- A reference whose target path `a.b` walks through the scalar `a = 3`:
```
a = 3

[c]
factory = "wrap"
input = "${a.b}"
```
-/
def viewRefThroughScalar : ConfigurationView :=
  { data := .vTable [("a", .vNum 3),
      ("c", .vTable [("factory", .vStr "wrap"), ("input", .vStr "${a.b}")])]
    elements := [["a"], ["c"], ["c", "factory"], ["c", "input"]]
    keys := [(["a"], rg 0 0 0 1), (["c"], rg 2 1 2 2), (["c", "factory"], rg 3 0 3 7),
      (["c", "input"], rg 4 0 4 5)]
    values := [(["a"], rg 0 4 0 5), (["c", "factory"], rg 3 10 3 16),
      (["c", "input"], rg 4 8 4 16)]
    references := [(["c", "input"], ["a", "b"])] }

/-- A dangling reference (missing table key) next to a sibling field with
a type violation:
```
[c]
factory = "wrap2"
input = "${nope}"
other = "oops"
```
-/
def viewRefDangling : ConfigurationView :=
  { data := .vTable [("c", .vTable [("factory", .vStr "wrap2"),
      ("input", .vStr "${nope}"), ("other", .vStr "oops")])]
    elements := [["c"], ["c", "factory"], ["c", "input"], ["c", "other"]]
    keys := [(["c"], rg 0 1 0 2), (["c", "factory"], rg 1 0 1 7),
      (["c", "input"], rg 2 0 2 5), (["c", "other"], rg 3 0 3 5)]
    values := [(["c", "factory"], rg 1 10 1 17), (["c", "input"], rg 2 8 2 17),
      (["c", "other"], rg 3 8 3 14)]
    references := [(["c", "input"], ["nope"])] }

/-- A reference resolving to the plain scalar `top = 3` (not a binding):
```
top = 3

[c]
factory = "wrap"
input = "${top}"
```
-/
def viewRefPlain : ConfigurationView :=
  { data := .vTable [("top", .vNum 3),
      ("c", .vTable [("factory", .vStr "wrap"), ("input", .vStr "${top}")])]
    elements := [["top"], ["c"], ["c", "factory"], ["c", "input"]]
    keys := [(["top"], rg 0 0 0 3), (["c"], rg 2 1 2 2), (["c", "factory"], rg 3 0 3 7),
      (["c", "input"], rg 4 0 4 5)]
    values := [(["top"], rg 0 6 0 7), (["c", "factory"], rg 3 10 3 16),
      (["c", "input"], rg 4 8 4 16)]
    references := [(["c", "input"], ["top"])] }

/-- The spec's clean reference round trip (§8):
```
[a]
factory = "add"
a = 1
b = 2

[c]
factory = "wrap"
input = "${a}"
```
with `wrap(input: float)` and `add` returning `float`. -/
def viewRoundTrip : ConfigurationView :=
  { data := .vTable [("a", .vTable [("factory", .vStr "add"), ("a", .vNum 1), ("b", .vNum 2)]),
      ("c", .vTable [("factory", .vStr "wrap"), ("input", .vStr "${a}")])]
    elements := [["a"], ["a", "factory"], ["a", "a"], ["a", "b"], ["c"], ["c", "factory"],
      ["c", "input"]]
    keys := [(["a"], rg 0 1 0 2), (["a", "factory"], rg 1 0 1 7), (["a", "a"], rg 2 0 2 1),
      (["a", "b"], rg 3 0 3 1), (["c"], rg 5 1 5 2), (["c", "factory"], rg 6 0 6 7),
      (["c", "input"], rg 7 0 7 5)]
    values := [(["a", "factory"], rg 1 10 1 15), (["a", "a"], rg 2 4 2 5),
      (["a", "b"], rg 3 4 3 5), (["c", "factory"], rg 6 10 6 16),
      (["c", "input"], rg 7 8 7 14)]
    references := [(["c", "input"], ["a"])] }

/-- Two unknown fields, for observing set iteration order:
```
[a]
factory = "multiply"
x = 1
y = 2
```
-/
def viewExtraKeys : ConfigurationView :=
  { data := .vTable [("a", .vTable [("factory", .vStr "multiply"), ("x", .vNum 1), ("y", .vNum 2)])]
    elements := [["a"], ["a", "factory"], ["a", "x"], ["a", "y"]]
    keys := [(["a"], rg 0 1 0 2), (["a", "factory"], rg 1 0 1 7), (["a", "x"], rg 2 0 2 1),
      (["a", "y"], rg 3 0 3 1)]
    values := [(["a", "factory"], rg 1 10 1 20), (["a", "x"], rg 2 4 2 5),
      (["a", "y"], rg 3 4 3 5)]
    references := [] }

/-! ## Reduction lemmas for the Except monad -/

theorem okBind {α β : Type} (a : α) (f : α → Except PyErr β) :
    (Except.ok a : Except PyErr α) >>= f = f a := rfl

theorem errBind {α β : Type} (e : PyErr) (f : α → Except PyErr β) :
    (Except.error e : Except PyErr α) >>= f = .error e := rfl

theorem pureOk {α : Type} (a : α) : (pure a : Except PyErr α) = .ok a := rfl

/-! ## Lemmas about mapE -/

theorem mapE_ok_mem {α β : Type} {f : α → Except PyErr β} {l : List α} {bs : List β}
    (h : mapE f l = .ok bs) {b : β} (hb : b ∈ bs) : ∃ a ∈ l, f a = .ok b := by
  induction l generalizing bs with
  | nil =>
      have h' := Except.ok.inj h
      rw [← h'] at hb
      cases hb
  | cons a as ih =>
      unfold mapE at h
      cases ha : f a with
      | error e => rw [ha] at h; exact Except.noConfusion h
      | ok b0 =>
          rw [ha] at h
          simp only [okBind] at h
          cases hm : mapE f as with
          | error e => rw [hm] at h; exact Except.noConfusion h
          | ok bs0 =>
              rw [hm] at h
              have h' := Except.ok.inj h
              rw [← h'] at hb
              rcases List.mem_cons.mp hb with rfl | hb0
              · exact ⟨a, List.mem_cons_self a as, ha⟩
              · obtain ⟨a', ha', hfa⟩ := ih hm hb0
                exact ⟨a', List.mem_cons_of_mem a ha', hfa⟩

theorem mapE_ok_forall {α β : Type} {f : α → Except PyErr β} {l : List α} {bs : List β}
    (h : mapE f l = .ok bs) : ∀ a ∈ l, ∃ b, f a = .ok b := by
  induction l generalizing bs with
  | nil => intro a ha; cases ha
  | cons a as ih =>
      unfold mapE at h
      cases ha0 : f a with
      | error e => rw [ha0] at h; exact Except.noConfusion h
      | ok b0 =>
          rw [ha0] at h
          simp only [okBind] at h
          cases hm : mapE f as with
          | error e => rw [hm] at h; exact Except.noConfusion h
          | ok bs0 =>
              intro a' ha'
              rcases List.mem_cons.mp ha' with rfl | hmem
              · exact ⟨b0, ha0⟩
              · exact ih hm a' hmem

theorem mapE_ok_exists {α β : Type} {f : α → Except PyErr β} {l : List α}
    (h : ∀ a ∈ l, ∃ b, f a = .ok b) : ∃ bs, mapE f l = .ok bs := by
  induction l with
  | nil => exact ⟨[], rfl⟩
  | cons a as ih =>
      obtain ⟨b, hb⟩ := h a (List.mem_cons_self a as)
      obtain ⟨bs, hbs⟩ := ih (fun a' ha' => h a' (List.mem_cons_of_mem a ha'))
      refine ⟨b :: bs, ?_⟩
      unfold mapE
      rw [hb]
      simp only [okBind]
      rw [hbs]
      rfl

theorem mapE_perm {α β : Type} {f : α → Except PyErr β} {l₁ l₂ : List α}
    (hp : l₁.Perm l₂) : ∀ {bs₁ bs₂ : List β}, mapE f l₁ = .ok bs₁ →
    mapE f l₂ = .ok bs₂ → bs₁.Perm bs₂ := by
  induction hp with
  | nil =>
      intro bs₁ bs₂ h₁ h₂
      have e₁ := Except.ok.inj h₁
      have e₂ := Except.ok.inj h₂
      rw [← e₁, ← e₂]
  | cons x hperm ih =>
      intro bs₁ bs₂ h₁ h₂
      unfold mapE at h₁ h₂
      cases hx : f x with
      | error e => rw [hx] at h₁; exact Except.noConfusion h₁
      | ok b =>
          rw [hx] at h₁ h₂
          simp only [okBind] at h₁ h₂
          cases hm₁ : mapE f _ with
          | error e => rw [hm₁] at h₁; exact Except.noConfusion h₁
          | ok t₁ =>
              cases hm₂ : mapE f _ with
              | error e => rw [hm₂] at h₂; exact Except.noConfusion h₂
              | ok t₂ =>
                  rw [hm₁] at h₁
                  rw [hm₂] at h₂
                  have e₁ := Except.ok.inj h₁
                  have e₂ := Except.ok.inj h₂
                  rw [← e₁, ← e₂]
                  exact (ih hm₁ hm₂).cons b
  | swap x y l =>
      intro bs₁ bs₂ h₁ h₂
      unfold mapE at h₁ h₂
      cases hy : f y with
      | error e => rw [hy] at h₁; exact Except.noConfusion h₁
      | ok b_y =>
          cases hx : f x with
          | error e => rw [hx] at h₂; exact Except.noConfusion h₂
          | ok b_x =>
              rw [hy] at h₁
              rw [hx] at h₂
              simp only [okBind] at h₁ h₂
              unfold mapE at h₁ h₂
              rw [hx] at h₁
              rw [hy] at h₂
              simp only [okBind] at h₁ h₂
              cases hm : mapE f l with
              | error e => rw [hm] at h₁; exact Except.noConfusion h₁
              | ok t =>
                  rw [hm] at h₁ h₂
                  simp only [okBind] at h₁ h₂
                  have e₁ := Except.ok.inj h₁
                  have e₂ := Except.ok.inj h₂
                  rw [← e₁, ← e₂]
                  exact List.Perm.swap b_x b_y t
  | trans hp₁ hp₂ ih₁ ih₂ =>
      intro bs₁ bs₂ h₁ h₂
      have hall : ∀ a ∈ _, ∃ b, f a = .ok b :=
        fun a ha => mapE_ok_forall h₁ a (hp₁.mem_iff.mpr ha)
      obtain ⟨bsm, hbsm⟩ := mapE_ok_exists hall
      exact (ih₁ h₁ hbsm).trans (ih₂ hbsm h₂)

/-- Concatenation is invariant, as a multiset, under permuting the
outer list. -/
theorem perm_flatten {α : Type} {l₁ l₂ : List (List α)} (h : l₁.Perm l₂) :
    l₁.flatten.Perm l₂.flatten := by
  induction h with
  | nil => exact List.Perm.refl _
  | cons x _ ih =>
      simp only [List.flatten_cons]
      exact ih.append_left x
  | swap x y l =>
      simp only [List.flatten_cons]
      rw [← List.append_assoc, ← List.append_assoc]
      exact List.perm_append_comm.append_right _
  | trans _ _ ih₁ ih₂ => exact ih₁.trans ih₂

theorem mapE_pointwise_flatten_perm {α β : Type} {f g : α → Except PyErr (List β)}
    {l : List α} {bsf bsg : List (List β)}
    (hf : mapE f l = .ok bsf) (hg : mapE g l = .ok bsg)
    (hpt : ∀ a ∈ l, ∀ x y, f a = .ok x → g a = .ok y → x.Perm y) :
    bsf.flatten.Perm bsg.flatten := by
  induction l generalizing bsf bsg with
  | nil =>
      have e₁ := Except.ok.inj hf
      have e₂ := Except.ok.inj hg
      rw [← e₁, ← e₂]
  | cons a as ih =>
      unfold mapE at hf hg
      cases ha : f a with
      | error e => rw [ha] at hf; exact Except.noConfusion hf
      | ok x =>
          cases hb : g a with
          | error e => rw [hb] at hg; exact Except.noConfusion hg
          | ok y =>
              rw [ha] at hf
              rw [hb] at hg
              simp only [okBind] at hf hg
              cases hmf : mapE f as with
              | error e => rw [hmf] at hf; exact Except.noConfusion hf
              | ok restf =>
                  cases hmg : mapE g as with
                  | error e => rw [hmg] at hg; exact Except.noConfusion hg
                  | ok restg =>
                      rw [hmf] at hf
                      rw [hmg] at hg
                      have e₁ := Except.ok.inj hf
                      have e₂ := Except.ok.inj hg
                      rw [← e₁, ← e₂]
                      simp only [List.flatten_cons]
                      exact (hpt a (List.mem_cons_self a as) x y ha hb).append
                        (ih hmf hmg (fun a' ha' => hpt a' (List.mem_cons_of_mem a ha')))

/-! ## Lemmas about the matching phase -/

theorem markDuplicate_factories {view : ConfigurationView} {st st1 : MatchState}
    {path : ElementPath} (h : markDuplicate view st path = .ok st1) :
    st1.factories = st.factories := by
  unfold markDuplicate at h
  by_cases hc : (alistGet st.roots path.dropLast).isSome
  · rw [if_pos hc] at h
    cases hk : pyGet view.keys path with
    | error e => rw [hk] at h; exact Except.noConfusion h
    | ok kr =>
        rw [hk] at h
        have h' := Except.ok.inj h
        rw [← h']
  · rw [if_neg hc] at h
    have h' := Except.ok.inj h
    rw [← h']

theorem recordBinding_factories {view : ConfigurationView}
    {registry : List (String × PyFunction)} {st st1 : MatchState}
    {path : ElementPath} {location : Range}
    (h : recordBinding view registry st path location = .ok st1) :
    st1.factories = st.factories ++ newFactories view registry path := by
  unfold recordBinding at h
  unfold newFactories
  cases hv : view.get_value path with
  | error e => rw [hv] at h; exact Except.noConfusion h
  | ok v =>
      rw [hv] at h
      cases v with
      | vStr s =>
          cases hr : alistGet registry s with
          | some fn =>
              replace h : (match alistGet registry s with
                | some fn => Except.ok { st with factories :=
                    st.factories ++ [(path, FunctionDescription.from_function s fn)] }
                | none => Except.ok { st with diagnostics :=
                    st.diagnostics ++ [mkDiag location (notFoundMsg s) .error] }) = .ok st1 := h
              rw [hr] at h
              have h' := Except.ok.inj h
              rw [← h']
              simp [hr]
          | none =>
              replace h : (match alistGet registry s with
                | some fn => Except.ok { st with factories :=
                    st.factories ++ [(path, FunctionDescription.from_function s fn)] }
                | none => Except.ok { st with diagnostics :=
                    st.diagnostics ++ [mkDiag location (notFoundMsg s) .error] }) = .ok st1 := h
              rw [hr] at h
              have h' := Except.ok.inj h
              rw [← h']
              simp [hr]
      | vNum n => have h' := Except.ok.inj h; rw [← h']; simp
      | vBool b => have h' := Except.ok.inj h; rw [← h']; simp
      | vTable es => have h' := Except.ok.inj h; rw [← h']; simp
      | vArr its => have h' := Except.ok.inj h; rw [← h']; simp

theorem processMarker_factories {view : ConfigurationView}
    {registry : List (String × PyFunction)} {st st1 : MatchState} {path : ElementPath}
    (h : processMarker view registry st path = .ok st1) :
    st1.factories = st.factories ++ newFactories view registry path := by
  unfold processMarker at h
  cases hl : pyGet view.values path with
  | error e => rw [hl] at h; exact Except.noConfusion h
  | ok location =>
      rw [hl] at h
      replace h : (markDuplicate view st path >>= fun st =>
          recordBinding view registry st path location) = .ok st1 := h
      cases hd : markDuplicate view st path with
      | error e => rw [hd] at h; exact Except.noConfusion h
      | ok st' =>
          rw [hd, okBind] at h
          rw [recordBinding_factories h, markDuplicate_factories hd]

/-- Members of `newFactories` are successfully matched bindings. -/
theorem newFactories_mem {view : ConfigurationView}
    {registry : List (String × PyFunction)} {path q : ElementPath}
    {d : FunctionDescription} (h : (q, d) ∈ newFactories view registry path) :
    q = path ∧ ∃ s fn, view.get_value path = .ok (.vStr s) ∧
      alistGet registry s = some fn ∧ d = FunctionDescription.from_function s fn := by
  unfold newFactories at h
  cases hv : view.get_value path with
  | error e => rw [hv] at h; simp at h
  | ok v =>
      rw [hv] at h
      cases v with
      | vStr s =>
          replace h : (q, d) ∈ (match alistGet registry s with
            | some fn => [(path, FunctionDescription.from_function s fn)]
            | none => ([] : List (ElementPath × FunctionDescription))) := h
          cases hr : alistGet registry s with
          | some fn =>
              rw [hr] at h
              simp only [List.mem_singleton, Prod.mk.injEq] at h
              exact ⟨h.1, s, fn, rfl, hr, h.2⟩
          | none => rw [hr] at h; simp at h
      | vNum n => simp at h
      | vBool b => simp at h
      | vTable es => simp at h
      | vArr its => simp at h

/-- Conversely, a successfully matched marker contributes its binding. -/
theorem newFactories_of_match {view : ConfigurationView}
    {registry : List (String × PyFunction)} {path : ElementPath} {s : String}
    {fn : PyFunction} (hv : view.get_value path = .ok (.vStr s))
    (hr : alistGet registry s = some fn) :
    newFactories view registry path = [(path, FunctionDescription.from_function s fn)] := by
  unfold newFactories
  rw [hv]
  simp [hr]

/-- Along the matching fold, the `factories` dict only grows by appending. -/
theorem foldMarkers_factories_mono {view : ConfigurationView}
    {registry : List (String × PyFunction)} (l : List ElementPath)
    (init : MatchState) {st : MatchState}
    (h : l.foldlM (processMarker view registry) init = .ok st) :
    ∃ t, st.factories = init.factories ++ t := by
  induction l generalizing init with
  | nil =>
      have h' := Except.ok.inj h
      exact ⟨[], by rw [← h']; simp⟩
  | cons p ps ih =>
      rw [List.foldlM_cons] at h
      cases hp : processMarker view registry init p with
      | error e => rw [hp] at h; exact Except.noConfusion h
      | ok st1 =>
          rw [hp] at h
          obtain ⟨t, ht⟩ := ih st1 h
          exact ⟨newFactories view registry p ++ t,
            by rw [ht, processMarker_factories hp, List.append_assoc]⟩

/-- Soundness: every entry of the final `factories` dict comes from the
initial state or from a successfully matched marker of the list. -/
theorem foldMarkers_factories_sound {view : ConfigurationView}
    {registry : List (String × PyFunction)} (l : List ElementPath)
    (init : MatchState) {st : MatchState}
    (h : l.foldlM (processMarker view registry) init = .ok st)
    {p : ElementPath} {d : FunctionDescription} (hmem : (p, d) ∈ st.factories) :
    (p, d) ∈ init.factories ∨
      ∃ s fn, view.get_value p = .ok (.vStr s) ∧ alistGet registry s = some fn ∧
        d = FunctionDescription.from_function s fn := by
  induction l generalizing init with
  | nil =>
      have h' := Except.ok.inj h
      rw [← h'] at hmem
      exact Or.inl hmem
  | cons q ps ih =>
      rw [List.foldlM_cons] at h
      cases hp : processMarker view registry init q with
      | error e => rw [hp] at h; exact Except.noConfusion h
      | ok st1 =>
          rw [hp] at h
          rcases ih st1 h with h1 | h2
          · rw [processMarker_factories hp, List.mem_append] at h1
            rcases h1 with h1 | h1
            · exact Or.inl h1
            · obtain ⟨hq, s, fn, hv, hr, hd⟩ := newFactories_mem h1
              exact Or.inr ⟨s, fn, hq ▸ hv, hr, hd⟩
          · exact Or.inr h2

/-- Completeness: every successfully matched marker of the list ends up
in the final `factories` dict — including the second and later markers
of an object that was flagged with a duplicate-binding error. -/
theorem foldMarkers_factories_complete {view : ConfigurationView}
    {registry : List (String × PyFunction)} (l : List ElementPath)
    (init : MatchState) {st : MatchState}
    (h : l.foldlM (processMarker view registry) init = .ok st)
    {p : ElementPath} (hp : p ∈ l) {s : String} {fn : PyFunction}
    (hv : view.get_value p = .ok (.vStr s))
    (hr : alistGet registry s = some fn) :
    (p, FunctionDescription.from_function s fn) ∈ st.factories := by
  induction l generalizing init with
  | nil => cases hp
  | cons q ps ih =>
      rw [List.foldlM_cons] at h
      cases hq : processMarker view registry init q with
      | error e => rw [hq] at h; exact Except.noConfusion h
      | ok st1 =>
          rw [hq] at h
          rcases List.mem_cons.mp hp with rfl | hps
          · obtain ⟨t, ht⟩ := foldMarkers_factories_mono ps st1 h
            rw [ht, processMarker_factories hq, newFactories_of_match hv hr]
            simp
          · exact ih st1 h hps

/-! ## Severity lemmas: every diagnostic is built with an explicit severity -/

theorem markDuplicate_diags {view : ConfigurationView} {st st1 : MatchState}
    {path : ElementPath} (h : markDuplicate view st path = .ok st1) :
    ∃ t, st1.diagnostics = st.diagnostics ++ t ∧ ∀ d ∈ t, d.severity = .error := by
  unfold markDuplicate at h
  by_cases hc : (alistGet st.roots path.dropLast).isSome
  · rw [if_pos hc] at h
    cases hk : pyGet view.keys path with
    | error e => rw [hk] at h; exact Except.noConfusion h
    | ok kr =>
        rw [hk] at h
        have h' := Except.ok.inj h
        refine ⟨[mkDiag kr dupMsg .error], by rw [← h'], ?_⟩
        intro d hd
        rw [List.mem_singleton.mp hd]
        rfl
  · rw [if_neg hc] at h
    have h' := Except.ok.inj h
    exact ⟨[], by rw [← h']; simp, by intro d hd; cases hd⟩

theorem recordBinding_diags {view : ConfigurationView}
    {registry : List (String × PyFunction)} {st st1 : MatchState}
    {path : ElementPath} {location : Range}
    (h : recordBinding view registry st path location = .ok st1) :
    ∃ t, st1.diagnostics = st.diagnostics ++ t ∧ ∀ d ∈ t, d.severity = .error := by
  unfold recordBinding at h
  cases hv : view.get_value path with
  | error e => rw [hv] at h; exact Except.noConfusion h
  | ok v =>
      rw [hv] at h
      cases v with
      | vStr s =>
          replace h : (match alistGet registry s with
            | some fn => Except.ok { st with factories :=
                st.factories ++ [(path, FunctionDescription.from_function s fn)] }
            | none => Except.ok { st with diagnostics :=
                st.diagnostics ++ [mkDiag location (notFoundMsg s) .error] }) = .ok st1 := h
          cases hr : alistGet registry s with
          | some fn =>
              rw [hr] at h
              have h' := Except.ok.inj h
              exact ⟨[], by rw [← h']; simp, by intro d hd; cases hd⟩
          | none =>
              rw [hr] at h
              have h' := Except.ok.inj h
              refine ⟨[mkDiag location (notFoundMsg s) .error], by rw [← h'], ?_⟩
              intro d hd
              rw [List.mem_singleton.mp hd]
              rfl
      | vNum n =>
          have h' := Except.ok.inj h
          refine ⟨[mkDiag location (nonStringMsg (Value.vNum n).typeName) .error],
            by rw [← h'], ?_⟩
          intro d hd
          rw [List.mem_singleton.mp hd]
          rfl
      | vBool b =>
          have h' := Except.ok.inj h
          refine ⟨[mkDiag location (nonStringMsg (Value.vBool b).typeName) .error],
            by rw [← h'], ?_⟩
          intro d hd
          rw [List.mem_singleton.mp hd]
          rfl
      | vTable es =>
          have h' := Except.ok.inj h
          refine ⟨[mkDiag location (nonStringMsg (Value.vTable es).typeName) .error],
            by rw [← h'], ?_⟩
          intro d hd
          rw [List.mem_singleton.mp hd]
          rfl
      | vArr its =>
          have h' := Except.ok.inj h
          refine ⟨[mkDiag location (nonStringMsg (Value.vArr its).typeName) .error],
            by rw [← h'], ?_⟩
          intro d hd
          rw [List.mem_singleton.mp hd]
          rfl

theorem processMarker_diags {view : ConfigurationView}
    {registry : List (String × PyFunction)} {st st1 : MatchState} {path : ElementPath}
    (h : processMarker view registry st path = .ok st1) :
    ∃ t, st1.diagnostics = st.diagnostics ++ t ∧ ∀ d ∈ t, d.severity = .error := by
  unfold processMarker at h
  cases hl : pyGet view.values path with
  | error e => rw [hl] at h; exact Except.noConfusion h
  | ok location =>
      rw [hl] at h
      replace h : (markDuplicate view st path >>= fun st =>
          recordBinding view registry st path location) = .ok st1 := h
      cases hd : markDuplicate view st path with
      | error e => rw [hd] at h; exact Except.noConfusion h
      | ok st' =>
          rw [hd, okBind] at h
          obtain ⟨t1, ht1, hs1⟩ := markDuplicate_diags hd
          obtain ⟨t2, ht2, hs2⟩ := recordBinding_diags h
          refine ⟨t1 ++ t2, by rw [ht2, ht1, List.append_assoc], ?_⟩
          intro d hd0
          rcases List.mem_append.mp hd0 with hmem | hmem
          · exact hs1 d hmem
          · exact hs2 d hmem

theorem foldMarkers_diags_sound {view : ConfigurationView}
    {registry : List (String × PyFunction)} (l : List ElementPath)
    (init : MatchState) {st : MatchState}
    (h : l.foldlM (processMarker view registry) init = .ok st)
    {d : Diagnostic} (hd : d ∈ st.diagnostics) :
    d ∈ init.diagnostics ∨ d.severity = .error := by
  induction l generalizing init with
  | nil =>
      have h' := Except.ok.inj h
      rw [← h'] at hd
      exact Or.inl hd
  | cons p ps ih =>
      rw [List.foldlM_cons] at h
      cases hp : processMarker view registry init p with
      | error e => rw [hp] at h; exact Except.noConfusion h
      | ok st1 =>
          rw [hp] at h
          rcases ih st1 h with h1 | h1
          · obtain ⟨t, ht, hs⟩ := processMarker_diags hp
            rw [ht] at h1
            rcases List.mem_append.mp h1 with hmem | hmem
            · exact Or.inl hmem
            · exact Or.inr (hs d hmem)
          · exact Or.inr h1

theorem subFactoryCheck_severity {roots : List (ElementPath × ElementPath)}
    {factories : List (ElementPath × FunctionDescription)} {fr : Range}
    {key : String} {info : FieldInfo} {tp : ElementPath} {ds : List Diagnostic}
    (h : subFactoryCheck roots factories fr key info tp = some ds) :
    ∀ d ∈ ds, d.severity = .error := by
  unfold subFactoryCheck at h
  cases h0 : alistGet roots tp with
  | none => rw [h0] at h; exact Option.noConfusion h
  | some sp =>
      rw [h0] at h
      replace h : (alistGet factories sp >>= fun sub =>
          match sub.return_type with
          | none => pure []
          | some rt =>
              if info.annot = PyType.any then pure []
              else if rt ≠ info.annot then
                pure [mkDiag fr (mismatchMsg key info.annot rt) .error]
              else pure []) = some ds := h
      cases h1 : alistGet factories sp with
      | none => rw [h1] at h; exact Option.noConfusion h
      | some sub =>
          rw [h1] at h
          replace h : (match sub.return_type with
            | none => some ([] : List Diagnostic)
            | some rt =>
                if info.annot = PyType.any then some []
                else if rt ≠ info.annot then
                  some [mkDiag fr (mismatchMsg key info.annot rt) .error]
                else some []) = some ds := h
          cases h2 : sub.return_type with
          | none =>
              rw [h2] at h
              have h' := Option.some.inj h
              rw [← h']
              intro d hd
              cases hd
          | some rt =>
              rw [h2] at h
              replace h : (if info.annot = PyType.any then some ([] : List Diagnostic)
                  else if rt ≠ info.annot then
                    some [mkDiag fr (mismatchMsg key info.annot rt) .error]
                  else some []) = some ds := h
              by_cases ha : info.annot = PyType.any
              · rw [if_pos ha] at h
                have h' := Option.some.inj h
                rw [← h']
                intro d hd
                cases hd
              · rw [if_neg ha] at h
                by_cases hne : rt ≠ info.annot
                · rw [if_pos hne] at h
                  have h' := Option.some.inj h
                  rw [← h']
                  intro d hd
                  rw [List.mem_singleton.mp hd]
                  rfl
                · rw [if_neg hne] at h
                  have h' := Option.some.inj h
                  rw [← h']
                  intro d hd
                  cases hd

theorem typeAdapterCheck_severity {view : ConfigurationView} {key : String}
    {info : FieldInfo} {value : Value} {tp : ElementPath} {ds : List Diagnostic}
    (h : typeAdapterCheck view key info value tp = .ok ds) :
    ∀ d ∈ ds, d.severity = .error := by
  unfold typeAdapterCheck at h
  cases hv : validatePython info.annot value with
  | nil =>
      rw [hv] at h
      have h' := Except.ok.inj h
      rw [← h']
      intro d hd
      cases hd
  | cons m ms =>
      rw [hv] at h
      cases hk : pyGet view.keys tp with
      | error e => rw [hk] at h; exact Except.noConfusion h
      | ok element =>
          rw [hk] at h
          simp only [okBind] at h
          have h' := Except.ok.inj h
          rw [← h']
          intro d hd
          obtain ⟨m', _, rfl⟩ := List.mem_map.mp hd
          rfl

theorem checkFieldAt_severity {view : ConfigurationView}
    {roots : List (ElementPath × ElementPath)}
    {factories : List (ElementPath × FunctionDescription)} {fr : Range}
    {key : String} {info : FieldInfo} {value : Value} {tp : ElementPath}
    {ds : List Diagnostic}
    (h : checkFieldAt view roots factories fr key info value tp = .ok ds) :
    ∀ d ∈ ds, d.severity = .error := by
  unfold checkFieldAt at h
  cases hsc : subFactoryCheck roots factories fr key info tp with
  | some ds' =>
      rw [hsc] at h
      have h' := Except.ok.inj h
      rw [← h']
      exact subFactoryCheck_severity hsc
  | none =>
      rw [hsc] at h
      exact typeAdapterCheck_severity h

theorem checkField_severity {view : ConfigurationView}
    {roots : List (ElementPath × ElementPath)}
    {factories : List (ElementPath × FunctionDescription)}
    {factory : FunctionDescription} {fr : Range} {root_path : ElementPath}
    {root : List (String × Value)} {key : String} {ds : List Diagnostic}
    (h : checkField view roots factories factory fr root_path root key = .ok ds) :
    ∀ d ∈ ds, d.severity = .error := by
  unfold checkField at h
  cases hinfo : pyGet factory.fields key with
  | error e => rw [hinfo] at h; exact Except.noConfusion h
  | ok info =>
      rw [hinfo] at h
      simp only [okBind] at h
      cases hval : pyGet root key with
      | error e => rw [hval] at h; exact Except.noConfusion h
      | ok value =>
          rw [hval] at h
          simp only [okBind] at h
          cases href : alistGet view.references (root_path ++ [key]) with
          | none => rw [href] at h; exact checkFieldAt_severity h
          | some target =>
              rw [href] at h
              cases hel : pyGet view.keys (root_path ++ [key]) with
              | error e => rw [hel] at h; exact Except.noConfusion h
              | ok element =>
                  rw [hel] at h
                  simp only [okBind] at h
                  cases hgv : view.get_value target with
                  | ok tv => rw [hgv] at h; exact checkFieldAt_severity h
                  | error e =>
                      rw [hgv] at h
                      cases e with
                      | keyError =>
                          have h' := Except.ok.inj h
                          rw [← h']
                          intro d hd
                          rw [List.mem_singleton.mp hd]
                          rfl
                      | typeError => exact Except.noConfusion h
                      | attributeError => exact Except.noConfusion h
                      | indexError => exact Except.noConfusion h
                      | valueError => exact Except.noConfusion h
                      | parseError => exact Except.noConfusion h

theorem checkBindingFields_severity {view : ConfigurationView} {markers : List String}
    {roots : List (ElementPath × ElementPath)}
    {factories : List (ElementPath × FunctionDescription)}
    {setIter : List String → List String} {path : ElementPath}
    {factory : FunctionDescription} {root : List (String × Value)}
    {ds : List Diagnostic}
    (h : checkBindingFields view markers roots factories setIter path factory root = .ok ds) :
    ∀ d ∈ ds, d.severity = .error ∨ d.severity = .warning := by
  unfold checkBindingFields at h
  replace h : (mapE (fun key => do
        let kr ← pyGet view.keys (path.dropLast ++ [key])
        pure (mkDiag kr (extraMsg key factory.name) .warning))
      (setIter (pySetDiff (pySetDiff (root.map Prod.fst) markers)
        (factory.fields.map Prod.fst))) >>= fun extraDiags =>
      pyGet view.keys path >>= fun factory_element =>
      mapE (checkField view roots factories factory factory_element path.dropLast root)
          (setIter (pySetInter (pySetDiff (root.map Prod.fst) markers)
            (factory.fields.map Prod.fst))) >>= fun fieldChunks =>
      pure (extraDiags ++
        (setIter (pySetDiff ((factory.fields.filter (fun f => f.2.is_required)).map Prod.fst)
          (pySetDiff (root.map Prod.fst) markers))).map
          (fun key => mkDiag factory_element (missingMsg key) .error) ++
        fieldChunks.flatten)) = .ok ds := h
  cases hex : mapE (fun key => do
      let kr ← pyGet view.keys (path.dropLast ++ [key])
      pure (mkDiag kr (extraMsg key factory.name) .warning))
      (setIter (pySetDiff (pySetDiff (root.map Prod.fst) markers)
        (factory.fields.map Prod.fst))) with
  | error e => rw [hex] at h; exact Except.noConfusion h
  | ok extra =>
      rw [hex] at h
      simp only [okBind] at h
      cases hfe : pyGet view.keys path with
      | error e => rw [hfe] at h; exact Except.noConfusion h
      | ok fr =>
          rw [hfe] at h
          simp only [okBind] at h
          cases hfc : mapE (checkField view roots factories factory fr path.dropLast root)
              (setIter (pySetInter (pySetDiff (root.map Prod.fst) markers)
                (factory.fields.map Prod.fst))) with
          | error e => rw [hfc] at h; exact Except.noConfusion h
          | ok chunks =>
              rw [hfc] at h
              simp only [okBind] at h
              have h' := Except.ok.inj h
              rw [← h']
              intro d hd
              rcases List.mem_append.mp hd with hd | hd
              · rcases List.mem_append.mp hd with hd | hd
                · obtain ⟨a, _, hfa⟩ := mapE_ok_mem hex hd
                  right
                  cases hk : pyGet view.keys (path.dropLast ++ [a]) with
                  | error e => rw [hk] at hfa; exact Except.noConfusion hfa
                  | ok kr =>
                      rw [hk] at hfa
                      simp only [okBind] at hfa
                      have hfa' := Except.ok.inj hfa
                      rw [← hfa']
                      rfl
                · left
                  obtain ⟨k, _, rfl⟩ := List.mem_map.mp hd
                  rfl
              · obtain ⟨chunk, hchunk, hdc⟩ := List.mem_flatten.mp hd
                obtain ⟨a, _, hfa⟩ := mapE_ok_mem hfc hchunk
                exact Or.inl (checkField_severity hfa d hdc)

theorem checkBinding_severity {view : ConfigurationView} {markers : List String}
    {roots : List (ElementPath × ElementPath)}
    {factories : List (ElementPath × FunctionDescription)}
    {setIter : List String → List String} {path : ElementPath}
    {factory : FunctionDescription} {ds : List Diagnostic}
    (h : checkBinding view markers roots factories setIter path factory = .ok ds) :
    ∀ d ∈ ds, d.severity = .error ∨ d.severity = .warning := by
  unfold checkBinding at h
  cases hro : view.get_object path.dropLast with
  | error e => rw [hro] at h; exact Except.noConfusion h
  | ok rootv =>
      rw [hro] at h
      cases rootv with
      | vTable root => exact checkBindingFields_severity h
      | vStr s => exact Except.noConfusion h
      | vNum n => exact Except.noConfusion h
      | vBool b => exact Except.noConfusion h
      | vArr its => exact Except.noConfusion h

theorem validateConfig_severity {registry : List (String × PyFunction)}
    {markers : List String} {setIter : List String → List String}
    {view : ConfigurationView} {ds : List Diagnostic}
    (h : validateConfig registry markers setIter view = .ok ds) :
    ∀ d ∈ ds, d.severity = .error ∨ d.severity = .warning := by
  unfold validateConfig at h
  cases hph : phase1 view registry markers with
  | error e => rw [hph] at h; exact Except.noConfusion h
  | ok st =>
      rw [hph] at h
      replace h : (mapE (fun pf => checkBinding view markers st.roots st.factories setIter pf.1 pf.2)
          st.factories >>= fun chunks => pure (st.diagnostics ++ chunks.flatten)) = .ok ds := h
      cases hc : mapE (fun pf => checkBinding view markers st.roots st.factories setIter pf.1 pf.2)
          st.factories with
      | error e => rw [hc] at h; exact Except.noConfusion h
      | ok chunks =>
          rw [hc] at h
          simp only [okBind] at h
          have h' := Except.ok.inj h
          rw [← h']
          intro d hd
          rcases List.mem_append.mp hd with hd | hd
          · rcases foldMarkers_diags_sound (view.factories markers) ⟨[], [], []⟩ hph hd with h0 | h0
            · exact absurd h0 (List.not_mem_nil _)
            · exact Or.inl h0
          · obtain ⟨chunk, hchunk, hdc⟩ := List.mem_flatten.mp hd
            obtain ⟨pf, _, hok⟩ := mapE_ok_mem hc hchunk
            exact checkBinding_severity hok d hdc

/-! ## Set-iteration-order invariance of the diagnostics multiset -/

theorem checkBindingFields_perm {view : ConfigurationView} {markers : List String}
    {roots : List (ElementPath × ElementPath)}
    {factories : List (ElementPath × FunctionDescription)}
    {o1 o2 : List String → List String} {path : ElementPath}
    {factory : FunctionDescription} {root : List (String × Value)}
    {ds1 ds2 : List Diagnostic}
    (ho1 : ValidOrder o1) (ho2 : ValidOrder o2)
    (h1 : checkBindingFields view markers roots factories o1 path factory root = .ok ds1)
    (h2 : checkBindingFields view markers roots factories o2 path factory root = .ok ds2) :
    ds1.Perm ds2 := by
  unfold checkBindingFields at h1 h2
  replace h1 : (mapE (fun key => do
        let kr ← pyGet view.keys (path.dropLast ++ [key])
        pure (mkDiag kr (extraMsg key factory.name) .warning))
      (o1 (pySetDiff (pySetDiff (root.map Prod.fst) markers)
        (factory.fields.map Prod.fst))) >>= fun extraDiags =>
      pyGet view.keys path >>= fun factory_element =>
      mapE (checkField view roots factories factory factory_element path.dropLast root)
          (o1 (pySetInter (pySetDiff (root.map Prod.fst) markers)
            (factory.fields.map Prod.fst))) >>= fun fieldChunks =>
      pure (extraDiags ++
        (o1 (pySetDiff ((factory.fields.filter (fun f => f.2.is_required)).map Prod.fst)
          (pySetDiff (root.map Prod.fst) markers))).map
          (fun key => mkDiag factory_element (missingMsg key) .error) ++
        fieldChunks.flatten)) = .ok ds1 := h1
  replace h2 : (mapE (fun key => do
        let kr ← pyGet view.keys (path.dropLast ++ [key])
        pure (mkDiag kr (extraMsg key factory.name) .warning))
      (o2 (pySetDiff (pySetDiff (root.map Prod.fst) markers)
        (factory.fields.map Prod.fst))) >>= fun extraDiags =>
      pyGet view.keys path >>= fun factory_element =>
      mapE (checkField view roots factories factory factory_element path.dropLast root)
          (o2 (pySetInter (pySetDiff (root.map Prod.fst) markers)
            (factory.fields.map Prod.fst))) >>= fun fieldChunks =>
      pure (extraDiags ++
        (o2 (pySetDiff ((factory.fields.filter (fun f => f.2.is_required)).map Prod.fst)
          (pySetDiff (root.map Prod.fst) markers))).map
          (fun key => mkDiag factory_element (missingMsg key) .error) ++
        fieldChunks.flatten)) = .ok ds2 := h2
  cases hex1 : mapE (fun key => do
      let kr ← pyGet view.keys (path.dropLast ++ [key])
      pure (mkDiag kr (extraMsg key factory.name) .warning))
      (o1 (pySetDiff (pySetDiff (root.map Prod.fst) markers)
        (factory.fields.map Prod.fst))) with
  | error e => rw [hex1] at h1; exact Except.noConfusion h1
  | ok extra1 =>
  cases hex2 : mapE (fun key => do
      let kr ← pyGet view.keys (path.dropLast ++ [key])
      pure (mkDiag kr (extraMsg key factory.name) .warning))
      (o2 (pySetDiff (pySetDiff (root.map Prod.fst) markers)
        (factory.fields.map Prod.fst))) with
  | error e => rw [hex2] at h2; exact Except.noConfusion h2
  | ok extra2 =>
  rw [hex1] at h1
  rw [hex2] at h2
  simp only [okBind] at h1 h2
  cases hfe : pyGet view.keys path with
  | error e => rw [hfe] at h1; exact Except.noConfusion h1
  | ok fr =>
  rw [hfe] at h1 h2
  simp only [okBind] at h1 h2
  cases hfc1 : mapE (checkField view roots factories factory fr path.dropLast root)
      (o1 (pySetInter (pySetDiff (root.map Prod.fst) markers)
        (factory.fields.map Prod.fst))) with
  | error e => rw [hfc1] at h1; exact Except.noConfusion h1
  | ok chunks1 =>
  cases hfc2 : mapE (checkField view roots factories factory fr path.dropLast root)
      (o2 (pySetInter (pySetDiff (root.map Prod.fst) markers)
        (factory.fields.map Prod.fst))) with
  | error e => rw [hfc2] at h2; exact Except.noConfusion h2
  | ok chunks2 =>
  rw [hfc1] at h1
  rw [hfc2] at h2
  simp only [okBind] at h1 h2
  have e1 := Except.ok.inj h1
  have e2 := Except.ok.inj h2
  rw [← e1, ← e2]
  have hpx : (o1 (pySetDiff (pySetDiff (root.map Prod.fst) markers)
      (factory.fields.map Prod.fst))).Perm
      (o2 (pySetDiff (pySetDiff (root.map Prod.fst) markers)
        (factory.fields.map Prod.fst))) :=
    (ho1 _).trans (ho2 _).symm
  have hpz : (o1 (pySetDiff ((factory.fields.filter (fun f => f.2.is_required)).map Prod.fst)
      (pySetDiff (root.map Prod.fst) markers))).Perm
      (o2 (pySetDiff ((factory.fields.filter (fun f => f.2.is_required)).map Prod.fst)
        (pySetDiff (root.map Prod.fst) markers))) :=
    (ho1 _).trans (ho2 _).symm
  have hpy : (o1 (pySetInter (pySetDiff (root.map Prod.fst) markers)
      (factory.fields.map Prod.fst))).Perm
      (o2 (pySetInter (pySetDiff (root.map Prod.fst) markers)
        (factory.fields.map Prod.fst))) :=
    (ho1 _).trans (ho2 _).symm
  exact ((mapE_perm hpx hex1 hex2).append
    (hpz.map (fun key => mkDiag fr (missingMsg key) .error))).append
    (perm_flatten (mapE_perm hpy hfc1 hfc2))

theorem checkBinding_perm {view : ConfigurationView} {markers : List String}
    {roots : List (ElementPath × ElementPath)}
    {factories : List (ElementPath × FunctionDescription)}
    {o1 o2 : List String → List String} {path : ElementPath}
    {factory : FunctionDescription} {ds1 ds2 : List Diagnostic}
    (ho1 : ValidOrder o1) (ho2 : ValidOrder o2)
    (h1 : checkBinding view markers roots factories o1 path factory = .ok ds1)
    (h2 : checkBinding view markers roots factories o2 path factory = .ok ds2) :
    ds1.Perm ds2 := by
  unfold checkBinding at h1 h2
  cases hro : view.get_object path.dropLast with
  | error e => rw [hro] at h1; exact Except.noConfusion h1
  | ok rootv =>
      rw [hro] at h1 h2
      cases rootv with
      | vTable root => exact checkBindingFields_perm ho1 ho2 h1 h2
      | vStr s => exact Except.noConfusion h1
      | vNum n => exact Except.noConfusion h1
      | vBool b => exact Except.noConfusion h1
      | vArr its => exact Except.noConfusion h1

theorem validateConfig_perm {registry : List (String × PyFunction)}
    {markers : List String} {o1 o2 : List String → List String}
    {view : ConfigurationView} {ds1 ds2 : List Diagnostic}
    (ho1 : ValidOrder o1) (ho2 : ValidOrder o2)
    (h1 : validateConfig registry markers o1 view = .ok ds1)
    (h2 : validateConfig registry markers o2 view = .ok ds2) :
    ds1.Perm ds2 := by
  unfold validateConfig at h1 h2
  cases hph : phase1 view registry markers with
  | error e => rw [hph] at h1; exact Except.noConfusion h1
  | ok st =>
      rw [hph] at h1 h2
      replace h1 : (mapE (fun pf => checkBinding view markers st.roots st.factories o1 pf.1 pf.2)
          st.factories >>= fun chunks => pure (st.diagnostics ++ chunks.flatten)) = .ok ds1 := h1
      replace h2 : (mapE (fun pf => checkBinding view markers st.roots st.factories o2 pf.1 pf.2)
          st.factories >>= fun chunks => pure (st.diagnostics ++ chunks.flatten)) = .ok ds2 := h2
      cases hc1 : mapE (fun pf => checkBinding view markers st.roots st.factories o1 pf.1 pf.2)
          st.factories with
      | error e => rw [hc1] at h1; exact Except.noConfusion h1
      | ok chunks1 =>
      cases hc2 : mapE (fun pf => checkBinding view markers st.roots st.factories o2 pf.1 pf.2)
          st.factories with
      | error e => rw [hc2] at h2; exact Except.noConfusion h2
      | ok chunks2 =>
      rw [hc1] at h1
      rw [hc2] at h2
      simp only [okBind] at h1 h2
      have e1 := Except.ok.inj h1
      have e2 := Except.ok.inj h2
      rw [← e1, ← e2]
      refine List.Perm.append_left st.diagnostics ?_
      exact mapE_pointwise_flatten_perm hc1 hc2
        (fun pf _ x y hx hy => checkBinding_perm ho1 ho2 hx hy)

/-! ## Claims about the matching phase -/

/-- C1 counterexample — in `viewDupNonString` the object `a` carries the
two marker keys `factory = "add"` and `builder = 3`; the matching phase
reports *two* structural diagnostics for it (the duplicate-binding error
at the second marker's key range plus the non-string-value error at the
second marker's value range), not exactly one. -/
theorem dup_marker_with_bad_value_two_structural_errors :
    phase1 viewDupNonString testRegistry markers2 = .ok
      { roots := [(["a"], ["a", "factory"])]
        factories := [(["a", "factory"], FunctionDescription.from_function "add" addFn)]
        diagnostics := [mkDiag (rg 2 0 2 7) dupMsg .error,
                        mkDiag (rg 2 10 2 11) (nonStringMsg "int") .error] } ∧
    mkDiag (rg 2 0 2 7) dupMsg .error ≠ mkDiag (rg 2 10 2 11) (nonStringMsg "int") .error := by
  exact ⟨by rfl, by decide⟩

/-- C1 — For a document whose marker elements are exactly the two marker
keys of one object, *each with a string value naming a registered
factory* (the amendment), the matching phase reports exactly one
structural diagnostic: the duplicate-binding error anchored at the key
range of the second-encountered marker, while `roots` keeps the
first-seen marker as the object's canonical binding. -/
theorem dup_marker_single_structural_error (view : ConfigurationView)
    (registry : List (String × PyFunction)) (markers : List String)
    (r p1 p2 : ElementPath) (v1 v2 kr2 : Range) (s1 s2 : String) (f1 f2 : PyFunction)
    (hfacts : view.factories markers = [p1, p2])
    (hr1 : p1.dropLast = r) (hr2 : p2.dropLast = r)
    (hv1 : pyGet view.values p1 = .ok v1) (hv2 : pyGet view.values p2 = .ok v2)
    (hs1 : view.get_value p1 = .ok (.vStr s1)) (hreg1 : alistGet registry s1 = some f1)
    (hs2 : view.get_value p2 = .ok (.vStr s2)) (hreg2 : alistGet registry s2 = some f2)
    (hk2 : pyGet view.keys p2 = .ok kr2) :
    phase1 view registry markers = .ok
      { roots := [(r, p1)]
        factories := [(p1, FunctionDescription.from_function s1 f1),
                      (p2, FunctionDescription.from_function s2 f2)]
        diagnostics := [mkDiag kr2 dupMsg .error] } := by
  unfold phase1
  rw [hfacts, List.foldlM_cons]
  have h1 : processMarker view registry ⟨[], [], []⟩ p1 =
      .ok ⟨[(r, p1)], [(p1, FunctionDescription.from_function s1 f1)], []⟩ := by
    simp [processMarker, markDuplicate, recordBinding, okBind, hv1, hs1, hreg1, hr1, alistGet]
  rw [h1]
  simp only [okBind]
  rw [List.foldlM_cons]
  have h2 : processMarker view registry
      ⟨[(r, p1)], [(p1, FunctionDescription.from_function s1 f1)], []⟩ p2 =
      .ok ⟨[(r, p1)], [(p1, FunctionDescription.from_function s1 f1),
                       (p2, FunctionDescription.from_function s2 f2)],
           [mkDiag kr2 dupMsg .error]⟩ := by
    simp [processMarker, markDuplicate, recordBinding, okBind, hv2, hs2, hreg2, hr2, hk2, alistGet]
  rw [h2]
  simp only [okBind]
  rfl

/-- Witness for `dup_marker_single_structural_error`, at the
`viewDupValid` document (`factory = "add"`, `builder = "add"` on object
`a`): one duplicate diagnostic anchored at `builder`'s key range, with
`a ↦ a.factory` as canonical binding. -/
theorem dup_marker_single_structural_error_witness :
    phase1 viewDupValid testRegistry markers2 = .ok
      { roots := [(["a"], ["a", "factory"])]
        factories := [(["a", "factory"], FunctionDescription.from_function "add" addFn),
                      (["a", "builder"], FunctionDescription.from_function "add" addFn)]
        diagnostics := [mkDiag (rg 2 0 2 7) dupMsg .error] } :=
  dup_marker_single_structural_error viewDupValid testRegistry markers2
    ["a"] ["a", "factory"] ["a", "builder"] (rg 1 10 1 15) (rg 2 10 2 15) (rg 2 0 2 7)
    "add" "add" addFn addFn rfl rfl rfl rfl rfl rfl rfl rfl rfl rfl

/-- C2 counterexample — the object `a` of `viewDupValid` incurs a
duplicate-binding structural error, yet it is *not* excluded from
field-level checks: `validate_config` reports missing-argument field
errors for it under both recorded bindings. -/
theorem dup_binding_object_still_field_checked :
    validateConfig testRegistry markers2 id viewDupValid = .ok
      [mkDiag (rg 2 0 2 7) dupMsg .error,
       mkDiag (rg 1 0 1 7) (missingMsg "a") .error,
       mkDiag (rg 1 0 1 7) (missingMsg "b") .error,
       mkDiag (rg 2 0 2 7) (missingMsg "a") .error,
       mkDiag (rg 2 0 2 7) (missingMsg "b") .error] := by
  rfl

/-- C2 — Characterization of the bindings that reach the field-level
phase: a binding is field-checked iff its marker's value is a string
naming a registered factory.  Markers with a non-string value or an
unknown factory name are excluded (first conjunct); every successfully
matched marker is included — *including* the extra markers of an object
flagged with a duplicate-binding error (second conjunct); and the
field-level diagnostics of `validate_config` are generated exactly from
these bindings, so validation of all other objects proceeds (third
conjunct). -/
theorem structural_error_exclusion (view : ConfigurationView)
    (registry : List (String × PyFunction)) (markers : List String)
    (st : MatchState) (h : phase1 view registry markers = .ok st) :
    (∀ p d, (p, d) ∈ st.factories → ∃ s fn,
        view.get_value p = .ok (.vStr s) ∧ alistGet registry s = some fn ∧
        d = FunctionDescription.from_function s fn) ∧
    (∀ p ∈ view.factories markers, ∀ s fn,
        view.get_value p = .ok (.vStr s) → alistGet registry s = some fn →
        (p, FunctionDescription.from_function s fn) ∈ st.factories) ∧
    (∀ setIter ds, validateConfig registry markers setIter view = .ok ds →
        ∃ chunks, mapE (fun pf => checkBinding view markers st.roots st.factories setIter pf.1 pf.2)
            st.factories = .ok chunks ∧ ds = st.diagnostics ++ chunks.flatten) := by
  refine ⟨?_, ?_, ?_⟩
  · intro p d hmem
    rcases foldMarkers_factories_sound (view.factories markers) ⟨[], [], []⟩ h hmem with h1 | h2
    · exact absurd h1 (List.not_mem_nil _)
    · exact h2
  · intro p hp s fn hv hr
    exact foldMarkers_factories_complete (view.factories markers) ⟨[], [], []⟩ h hp hv hr
  · intro setIter ds hds
    unfold validateConfig at hds
    rw [h] at hds
    replace hds : (mapE (fun pf => checkBinding view markers st.roots st.factories setIter pf.1 pf.2)
        st.factories >>= fun chunks => pure (st.diagnostics ++ chunks.flatten)) = .ok ds := hds
    cases hc : mapE (fun pf => checkBinding view markers st.roots st.factories setIter pf.1 pf.2)
        st.factories with
    | error e => rw [hc] at hds; exact Except.noConfusion hds
    | ok chunks =>
        rw [hc] at hds
        have h' := Except.ok.inj hds
        exact ⟨chunks, rfl, h'.symm⟩

/-- Witness for `structural_error_exclusion`: in `viewDupValid` the
second marker `a.builder` (a duplicate, but a registered factory name)
is a member of the field-checked bindings. -/
theorem structural_error_exclusion_witness :
    (["a", "builder"], FunctionDescription.from_function "add" addFn) ∈
      (MatchState.factories
        ⟨[(["a"], ["a", "factory"])],
         [(["a", "factory"], FunctionDescription.from_function "add" addFn),
          (["a", "builder"], FunctionDescription.from_function "add" addFn)],
         [mkDiag (rg 2 0 2 7) dupMsg .error]⟩) :=
  (structural_error_exclusion viewDupValid testRegistry markers2 _ rfl).2.1
    ["a", "builder"] (by decide) "add" addFn rfl rfl

/-! ## Claims about the field-level checks -/

/-- C3 — First conjunct: for every binding reaching the field phase, the
diagnostics of its per-binding check contain a contiguous block with
exactly one missing-argument error per required field absent from the
object's keys, each anchored at the binding's marker-key element
(`missingList` enumerates the missing fields without duplicates).
Second conjunct: the spec's scenario — `{a: {factory: "add", a: 1}}`
with `add(a, b)` and `b` lacking a default yields exactly one
diagnostic, the error "Argument `b` is missing." anchored at
`a.factory`'s key element. -/
theorem missing_required_one_error_per_field (view : ConfigurationView)
    (markers : List String)
    (roots : List (ElementPath × ElementPath))
    (factories : List (ElementPath × FunctionDescription))
    (setIter : List String → List String) (path : ElementPath)
    (factory : FunctionDescription) (ds : List Diagnostic)
    (root : List (String × Value)) (fr : Range)
    (ho : ValidOrder setIter)
    (hroot : view.get_object path.dropLast = .ok (.vTable root))
    (hfr : pyGet view.keys path = .ok fr)
    (hnd : (factory.fields.map Prod.fst).Nodup)
    (h : checkBinding view markers roots factories setIter path factory = .ok ds) :
    (∃ (pre post : List Diagnostic) (missingList : List String),
        ds = pre ++ missingList.map (fun k => mkDiag fr (missingMsg k) .error) ++ post ∧
        missingList.Perm (pySetDiff
          ((factory.fields.filter (fun f => f.2.is_required)).map Prod.fst)
          (pySetDiff (root.map Prod.fst) markers)) ∧
        missingList.Nodup) ∧
    validateConfig testRegistry markers1 id viewMissingB =
      .ok [mkDiag (rg 1 0 1 7) (missingMsg "b") .error] := by
  refine ⟨?_, by rfl⟩
  unfold checkBinding at h
  rw [hroot] at h
  replace h : checkBindingFields view markers roots factories setIter path factory root = .ok ds := h
  unfold checkBindingFields at h
  replace h : (mapE (fun key => do
        let kr ← pyGet view.keys (path.dropLast ++ [key])
        pure (mkDiag kr (extraMsg key factory.name) .warning))
      (setIter (pySetDiff (pySetDiff (root.map Prod.fst) markers)
        (factory.fields.map Prod.fst))) >>= fun extraDiags =>
      pyGet view.keys path >>= fun factory_element =>
      mapE (checkField view roots factories factory factory_element path.dropLast root)
          (setIter (pySetInter (pySetDiff (root.map Prod.fst) markers)
            (factory.fields.map Prod.fst))) >>= fun fieldChunks =>
      pure (extraDiags ++
        (setIter (pySetDiff ((factory.fields.filter (fun f => f.2.is_required)).map Prod.fst)
          (pySetDiff (root.map Prod.fst) markers))).map
          (fun key => mkDiag factory_element (missingMsg key) .error) ++
        fieldChunks.flatten)) = .ok ds := h
  cases hex : mapE (fun key => do
      let kr ← pyGet view.keys (path.dropLast ++ [key])
      pure (mkDiag kr (extraMsg key factory.name) .warning))
      (setIter (pySetDiff (pySetDiff (root.map Prod.fst) markers)
        (factory.fields.map Prod.fst))) with
  | error e => rw [hex] at h; exact Except.noConfusion h
  | ok extra =>
      rw [hex] at h
      simp only [okBind] at h
      rw [hfr] at h
      simp only [okBind] at h
      cases hfc : mapE (checkField view roots factories factory fr path.dropLast root)
          (setIter (pySetInter (pySetDiff (root.map Prod.fst) markers)
            (factory.fields.map Prod.fst))) with
      | error e => rw [hfc] at h; exact Except.noConfusion h
      | ok chunks =>
          rw [hfc] at h
          simp only [okBind] at h
          have h' := Except.ok.inj h
          refine ⟨extra, chunks.flatten,
            setIter (pySetDiff ((factory.fields.filter (fun f => f.2.is_required)).map Prod.fst)
              (pySetDiff (root.map Prod.fst) markers)), h'.symm, ho _, ?_⟩
          have hsub : ((factory.fields.filter (fun f => f.2.is_required)).map Prod.fst).Sublist
              (factory.fields.map Prod.fst) :=
            (List.filter_sublist _).map Prod.fst
          have hnd2 : ((factory.fields.filter (fun f => f.2.is_required)).map Prod.fst).Nodup :=
            hnd.sublist hsub
          exact ((ho _).nodup_iff).mpr (hnd2.filter _)

/-- Witness for `missing_required_one_error_per_field`, instantiated at
the scenario document's single binding. -/
theorem missing_required_one_error_per_field_witness :
    (∃ (pre post : List Diagnostic) (missingList : List String),
        [mkDiag (rg 1 0 1 7) (missingMsg "b") .error] =
          pre ++ missingList.map (fun k => mkDiag (rg 1 0 1 7) (missingMsg k) .error) ++ post ∧
        missingList.Perm (pySetDiff
          (((FunctionDescription.from_function "add" addFn).fields.filter
            (fun f => f.2.is_required)).map Prod.fst)
          (pySetDiff ([("factory", Value.vStr "add"), ("a", Value.vNum 1)].map Prod.fst) markers1)) ∧
        missingList.Nodup) ∧
    validateConfig testRegistry markers1 id viewMissingB =
      .ok [mkDiag (rg 1 0 1 7) (missingMsg "b") .error] :=
  missing_required_one_error_per_field viewMissingB markers1
    [(["a"], ["a", "factory"])]
    [(["a", "factory"], FunctionDescription.from_function "add" addFn)]
    id ["a", "factory"] (FunctionDescription.from_function "add" addFn)
    [mkDiag (rg 1 0 1 7) (missingMsg "b") .error]
    [("factory", .vStr "add"), ("a", .vNum 1)] (rg 1 0 1 7)
    (fun xs => List.Perm.refl xs) rfl rfl (by decide) rfl

/-! ## Claims about the sub-factory comparison and reference resolution -/

/-- C4 — For a field whose (resolved) path is the object path of a
binding with a known, non-wildcard return type, *and whose own declared
type is not the `Any` wildcard* (the amendment), a diagnostic is emitted
iff the return type differs from the declared type under nominal
equality; when emitted it is exactly one error naming both types,
anchored at the referencing binding's marker element; and the spec's
clean reference round trip produces no diagnostics. -/
theorem subfactory_nominal_equality (view : ConfigurationView)
    (roots : List (ElementPath × ElementPath))
    (factories : List (ElementPath × FunctionDescription))
    (fr : Range) (key : String) (info : FieldInfo) (value : Value)
    (tp sp : ElementPath) (sub : FunctionDescription) (rt : PyType)
    (hsp : alistGet roots tp = some sp)
    (hsub : alistGet factories sp = some sub)
    (hrt : sub.return_type = some rt)
    (hrtw : rt ≠ .any)
    (hann : info.annot ≠ .any) :
    checkFieldAt view roots factories fr key info value tp =
      .ok (if rt = info.annot then []
           else [mkDiag fr (mismatchMsg key info.annot rt) .error]) ∧
    validateConfig testRegistry markers1 id viewRoundTrip = .ok [] := by
  refine ⟨?_, by rfl⟩
  unfold checkFieldAt subFactoryCheck
  by_cases h : rt = info.annot
  · simp [hsp, hsub, hrt, h, hann]
  · simp [hsp, hsub, hrt, h, hann, Ne.symm h]

/-- Witness for `subfactory_nominal_equality`: the round-trip document's
`c.input` field, declared `float` and provided by the `add` binding
returning `float`, gets no diagnostic. -/
theorem subfactory_nominal_equality_witness :
    checkFieldAt viewRoundTrip [(["a"], ["a", "factory"])]
      [(["a", "factory"], FunctionDescription.from_function "add" addFn)]
      (rg 6 0 6 7) "input" ⟨.float, false⟩ (.vStr "a") ["a"] = .ok [] :=
  (subfactory_nominal_equality viewRoundTrip [(["a"], ["a", "factory"])]
    [(["a", "factory"], FunctionDescription.from_function "add" addFn)]
    (rg 6 0 6 7) "input" ⟨.float, false⟩ (.vStr "a") ["a"] ["a", "factory"]
    (FunctionDescription.from_function "add" addFn) .float
    rfl rfl rfl (by decide) (by decide)).1

/-- C4 counterexample — the field `c.input` of `viewNestedAnyField` is
declared `Any` and provided by the nested `add` binding whose return type
`float` is known, non-wildcard, and differs from `Any` under nominal
equality, yet `validate_config` emits no diagnostic at all. -/
theorem any_field_subfactory_not_flagged :
    validateConfig testRegistry markers1 id viewNestedAnyField = .ok [] ∧
    (FunctionDescription.from_function "wrap_any" wrapAnyFn).fields =
      [("input", ⟨.any, false⟩)] ∧
    (FunctionDescription.from_function "add" addFn).return_type = some .float ∧
    PyType.float ≠ PyType.any := by
  exact ⟨by rfl, by rfl, by rfl, by decide⟩

/-- C5 — The sub-factory comparison is skipped when the sub-factory's
return type is unknown (`None`) or when the field's declared type is the
`Any` wildcard; but (contrary to the claim) a sub-factory return type of
`Any` does *not* skip the comparison: with a non-`Any` declared type it
is reported as a mismatch. -/
theorem subfactory_skip_characterization (view : ConfigurationView)
    (roots : List (ElementPath × ElementPath))
    (factories : List (ElementPath × FunctionDescription))
    (fr : Range) (key : String) (info : FieldInfo) (value : Value)
    (tp sp : ElementPath) (sub : FunctionDescription)
    (hsp : alistGet roots tp = some sp)
    (hsub : alistGet factories sp = some sub) :
    (sub.return_type = none →
      checkFieldAt view roots factories fr key info value tp = .ok []) ∧
    (info.annot = .any →
      checkFieldAt view roots factories fr key info value tp = .ok []) ∧
    (sub.return_type = some .any → info.annot ≠ .any →
      checkFieldAt view roots factories fr key info value tp =
        .ok [mkDiag fr (mismatchMsg key info.annot .any) .error]) := by
  refine ⟨fun hrt => ?_, fun hann => ?_, fun hrt hann => ?_⟩
  · unfold checkFieldAt subFactoryCheck
    simp [hsp, hsub, hrt]
  · unfold checkFieldAt subFactoryCheck
    cases hrt : sub.return_type with
    | none => simp [hsp, hsub, hrt]
    | some rt => simp [hsp, hsub, hrt, hann]
  · unfold checkFieldAt subFactoryCheck
    simp [hsp, hsub, hrt, hann, Ne.symm hann]

/-- Witness for `subfactory_skip_characterization`: at the
`viewNestedAnyReturn` document's `c.input` field (declared `float`,
provided by `anyret` whose return annotation is `Any`), the comparison is
not skipped and yields the mismatch diagnostic. -/
theorem subfactory_skip_characterization_witness :
    checkFieldAt viewNestedAnyReturn [(["c"], ["c", "factory"]), (["c", "input"], ["c", "input", "factory"])]
      [(["c", "factory"], FunctionDescription.from_function "wrap" wrapFloatFn),
       (["c", "input", "factory"], FunctionDescription.from_function "anyret" anyRetFn)]
      (rg 1 0 1 7) "input" ⟨.float, false⟩
      (.vTable [("factory", .vStr "anyret"), ("x", .vNum 1)]) ["c", "input"] =
      .ok [mkDiag (rg 1 0 1 7) (mismatchMsg "input" .float .any) .error] :=
  (subfactory_skip_characterization viewNestedAnyReturn
    [(["c"], ["c", "factory"]), (["c", "input"], ["c", "input", "factory"])]
    [(["c", "factory"], FunctionDescription.from_function "wrap" wrapFloatFn),
     (["c", "input", "factory"], FunctionDescription.from_function "anyret" anyRetFn)]
    (rg 1 0 1 7) "input" ⟨.float, false⟩
    (.vTable [("factory", .vStr "anyret"), ("x", .vNum 1)]) ["c", "input"]
    ["c", "input", "factory"] (FunctionDescription.from_function "anyret" anyRetFn)
    rfl rfl).2.2 rfl (by decide)

/-- C5 counterexample — in `viewNestedAnyReturn` the sub-factory
`anyret`'s return type is the `Any` wildcard, so per the claim the
comparison should be skipped with no diagnostic; `validate_config`
nevertheless emits a mismatch error. -/
theorem any_return_not_skipped :
    validateConfig testRegistry markers1 id viewNestedAnyReturn =
      .ok [mkDiag (rg 1 0 1 7) (mismatchMsg "input" .float .any) .error] ∧
    anyRetFn.returnHint = some PyType.any := by
  exact ⟨by rfl, by rfl⟩

/-- C6 — behaviour on unresolved references.  First conjunct (the bug):
in `viewRefThroughScalar` the field `c.input` references the
non-existent path `a.b`, whose lookup walks through the scalar `a = 3`;
`view.get_value` raises `TypeError`, which the `except KeyError` handler
does not catch, so `validate_config` raises instead of reporting the
reference and the sibling checks.  Second conjunct (the intended
behaviour, reachable when the dangling component is a missing table
key): exactly one "No element with this key exists." error anchored at
the referencing field's key element, with the sibling field's check
still reported. -/
theorem unresolved_reference_behaviour :
    validateConfig testRegistry markers1 id viewRefThroughScalar = .error .typeError ∧
    validateConfig testRegistry markers1 id viewRefDangling =
      .ok [mkDiag (rg 2 0 2 5) unresolvedMsg .error,
           mkDiag (rg 3 0 3 5) (typeErrMsg "other" "Input should be a valid number") .error] := by
  exact ⟨by rfl, by rfl⟩

/-- C7 — For a field whose reference resolves to a path that is not the
object path of a binding, the target path is substituted only as the
anchor of subsequent diagnostics: the *raw reference value* (not the
value at the target) is validated against the declared type, and any
violations are anchored at the *target's* key element. -/
theorem resolved_reference_substitution (view : ConfigurationView)
    (roots : List (ElementPath × ElementPath))
    (factories : List (ElementPath × FunctionDescription))
    (factory : FunctionDescription) (fr : Range)
    (root_path : ElementPath) (root : List (String × Value))
    (key : String) (info : FieldInfo) (value tv : Value)
    (target : ElementPath) (el : Range)
    (hinfo : pyGet factory.fields key = .ok info)
    (hval : pyGet root key = .ok value)
    (href : alistGet view.references (root_path ++ [key]) = some target)
    (hel : pyGet view.keys (root_path ++ [key]) = .ok el)
    (htv : view.get_value target = .ok tv)
    (hnb : alistGet roots target = none) :
    checkField view roots factories factory fr root_path root key =
      typeAdapterCheck view key info value target := by
  unfold checkField
  simp only [hinfo, hval, href, hel, htv]
  unfold checkFieldAt subFactoryCheck
  simp only [hnb, Option.bind_none]
  rfl

/-- Witness for `resolved_reference_substitution`: the `viewRefPlain`
field `c.input` (declared `float`, raw value the reference string
`"${top}"`, resolving to the scalar `top = 3`) produces one type error
anchored at `top`'s key element. -/
theorem resolved_reference_substitution_witness :
    checkField viewRefPlain [(["c"], ["c", "factory"])]
      [(["c", "factory"], FunctionDescription.from_function "wrap" wrapFloatFn)]
      (FunctionDescription.from_function "wrap" wrapFloatFn) (rg 3 0 3 7)
      ["c"] [("factory", .vStr "wrap"), ("input", .vStr "${top}")] "input" =
      .ok [mkDiag (rg 0 0 0 3) (typeErrMsg "input" "Input should be a valid number") .error] := by
  have h := resolved_reference_substitution viewRefPlain [(["c"], ["c", "factory"])]
    [(["c", "factory"], FunctionDescription.from_function "wrap" wrapFloatFn)]
    (FunctionDescription.from_function "wrap" wrapFloatFn) (rg 3 0 3 7)
    ["c"] [("factory", .vStr "wrap"), ("input", .vStr "${top}")]
    "input" ⟨.float, false⟩ (.vStr "${top}") (.vNum 3) ["top"] (rg 4 0 4 5)
    rfl rfl rfl rfl rfl rfl
  exact h.trans (by decide)

/-- C7 counterexample — in `viewRefPlain`, the field `c.input` declared
`float` references the scalar `top = 3`; the target's value `3` would
satisfy the declared type, yet `validate_config` emits a type error
(because it validates the raw reference string), and anchors it at
`top`'s key element (`rg 0 0 0 3`), not at the referencing field's
element (`c.input`'s key element is `rg 4 0 4 5`). -/
theorem resolved_reference_checks_raw_value :
    validateConfig testRegistry markers1 id viewRefPlain =
      .ok [mkDiag (rg 0 0 0 3) (typeErrMsg "input" "Input should be a valid number") .error] ∧
    ConfigurationView.get_value viewRefPlain ["top"] = .ok (.vNum 3) ∧
    validatePython .float (.vNum 3) = [] ∧
    alistGet viewRefPlain.keys ["c", "input"] = some (rg 4 0 4 5) ∧
    rg 0 0 0 3 ≠ rg 4 0 4 5 := by
  exact ⟨by rfl, by rfl, by rfl, by rfl, by decide⟩

/-- C9 counterexample — the ordering of the diagnostics of
`validate_config` depends on the Python set iteration order: on
`viewExtraKeys` the identity order and the reversed order (both
admissible set orders, witnessed by the two `ValidOrder` conjuncts)
produce differently ordered diagnostic lists, so the ordering is
hash-dependent rather than document-traversal order. -/
theorem diagnostic_order_depends_on_set_order :
    validateConfig testRegistry markers1 id viewExtraKeys ≠
      validateConfig testRegistry markers1 List.reverse viewExtraKeys ∧
    ValidOrder id ∧ ValidOrder List.reverse := by
  refine ⟨by decide, fun xs => List.Perm.refl xs, fun xs => List.reverse_perm xs⟩

/-- C9 — With a fixed set iteration order, `validate_config` is a pure
function of the document view, so two calls on identical text yield
identical diagnostics; and across *different* admissible set iteration
orders (different runs / hash seeds) the multiset of diagnostics is
invariant — only the ordering inside each object's unknown-field,
missing-field and field-check groups can change, following the set
order rather than document traversal order. -/
theorem diagnostics_multiset_set_order_invariant
    (registry : List (String × PyFunction)) (markers : List String)
    (o1 o2 : List String → List String) (view : ConfigurationView)
    (ds1 ds2 : List Diagnostic)
    (ho1 : ValidOrder o1) (ho2 : ValidOrder o2)
    (h1 : validateConfig registry markers o1 view = .ok ds1)
    (h2 : validateConfig registry markers o2 view = .ok ds2) :
    ds1.Perm ds2 :=
  validateConfig_perm ho1 ho2 h1 h2

/-- Witness for `diagnostics_multiset_set_order_invariant`: on
`viewExtraKeys` the identity and reversed set orders produce permuted
diagnostics. -/
theorem diagnostics_multiset_set_order_invariant_witness :
    List.Perm
      [mkDiag (rg 2 0 2 1) (extraMsg "x" "multiply") .warning,
       mkDiag (rg 3 0 3 1) (extraMsg "y" "multiply") .warning,
       mkDiag (rg 1 0 1 7) (missingMsg "a") .error]
      [mkDiag (rg 3 0 3 1) (extraMsg "y" "multiply") .warning,
       mkDiag (rg 2 0 2 1) (extraMsg "x" "multiply") .warning,
       mkDiag (rg 1 0 1 7) (missingMsg "a") .error] :=
  diagnostics_multiset_set_order_invariant testRegistry markers1 id List.reverse
    viewExtraKeys _ _ (fun xs => List.Perm.refl xs) (fun xs => List.reverse_perm xs)
    rfl rfl

/-- C8 — First conjunct (the part of the claim that holds): every
diagnostic `validate_config` produces carries an explicit severity,
error or warning.  Second and third conjuncts (the amendment): on
malformed input no ParseError *result* is produced — `from_source`
raises, and the exception propagates out of `parse` uncaught. -/
theorem severities_explicit_and_parse_raises :
    (∀ (registry : List (String × PyFunction)) (markers : List String)
        (setIter : List String → List String) (view : ConfigurationView)
        (ds : List Diagnostic),
        validateConfig registry markers setIter view = .ok ds →
        ∀ d ∈ ds, d.severity = .error ∨ d.severity = .warning) ∧
    ConfigurationView.from_source (.malformed "key = ") = .error .parseError ∧
    parse hash0 [] ⟨"file:///config.toml", .malformed "key = "⟩ = .error .parseError :=
  ⟨fun _ _ _ _ _ h => validateConfig_severity h, rfl, rfl⟩

/-- Witness for `severities_explicit_and_parse_raises`, instantiated at
the missing-argument scenario's output. -/
theorem severities_explicit_and_parse_raises_witness :
    ∀ d ∈ [mkDiag (rg 1 0 1 7) (missingMsg "b") .error],
      d.severity = DiagnosticSeverity.error ∨ d.severity = DiagnosticSeverity.warning :=
  severities_explicit_and_parse_raises.1 testRegistry markers1 id viewMissingB _ rfl

/-- C8 counterexample — on malformed input the open-document request
does not fail with a ParseError result: the `rtoml` exception propagates
uncaught through `parse` and `did_open` (the embedded `.error` value is
an escaping Python exception), so an exception does cross the validation
boundary. -/
theorem malformed_input_exception_escapes :
    did_open hash0 testRegistry markers1 id []
      ⟨"file:///config.toml", .malformed "key = "⟩ = .error .parseError := rfl

/-- C10 — For a URI that does not end in `.toml` and has no cached view,
`parse` returns `None`; consequently `did_open` and `did_save` publish
no diagnostics, and the hover, definition, completion and inlay-hint
handlers all return no result (and raise no exception). -/
theorem non_toml_uri_no_result (hashFn : Source → Nat)
    (registry : List (String × PyFunction)) (registries : Registries)
    (markers : List String) (setIter : List String → List String)
    (views : ViewCache) (uri : String) (src : Source) (pos start stop : Position)
    (hcache : alistGet views uri = none)
    (htoml : pyEndsWith uri ".toml" = false) :
    parse hashFn views ⟨uri, src⟩ = .ok (none, views) ∧
    did_open hashFn registry markers setIter views ⟨uri, src⟩ = .ok (none, views) ∧
    did_save hashFn registry markers setIter views ⟨uri, src⟩ = .ok (none, views) ∧
    hover hashFn registries markers views ⟨uri, src⟩ pos = .ok (none, views) ∧
    definition hashFn registries markers views ⟨uri, src⟩ pos = .ok (none, views) ∧
    completion hashFn registry views ⟨uri, src⟩ pos = .ok (none, views) ∧
    inlay_hints hashFn registry registries views ⟨uri, src⟩ start stop = .ok (none, views) := by
  have hp : parse hashFn views ⟨uri, src⟩ = .ok (none, views) := by
    unfold parse
    simp [hcache, htoml]
  refine ⟨hp, ?_, ?_, ?_, ?_, ?_, ?_⟩
  · unfold did_open
    rw [hp]
    rfl
  · unfold did_save
    rw [hp]
    rfl
  · unfold hover
    rw [hp]
    rfl
  · unfold definition
    rw [hp]
    rfl
  · unfold completion
    rw [hp]
    rfl
  · unfold inlay_hints
    rw [hp]
    rfl

/-- Witness for `non_toml_uri_no_result`: a plain-text URI with an empty
cache yields no parse result, no published diagnostics and no query
results. -/
theorem non_toml_uri_no_result_witness :
    parse hash0 [] ⟨"file:///notes.txt", .wellFormed viewMissingB⟩ = .ok (none, []) ∧
    did_open hash0 testRegistry markers1 id []
      ⟨"file:///notes.txt", .wellFormed viewMissingB⟩ = .ok (none, []) ∧
    did_save hash0 testRegistry markers1 id []
      ⟨"file:///notes.txt", .wellFormed viewMissingB⟩ = .ok (none, []) ∧
    hover hash0 [] markers1 [] ⟨"file:///notes.txt", .wellFormed viewMissingB⟩ ⟨0, 0⟩ =
      .ok (none, []) ∧
    definition hash0 [] markers1 [] ⟨"file:///notes.txt", .wellFormed viewMissingB⟩ ⟨0, 0⟩ =
      .ok (none, []) ∧
    completion hash0 testRegistry [] ⟨"file:///notes.txt", .wellFormed viewMissingB⟩ ⟨0, 0⟩ =
      .ok (none, []) ∧
    inlay_hints hash0 testRegistry [] [] ⟨"file:///notes.txt", .wellFormed viewMissingB⟩
      ⟨0, 0⟩ ⟨9, 0⟩ = .ok (none, []) :=
  non_toml_uri_no_result hash0 testRegistry [] markers1 id [] "file:///notes.txt"
    (.wellFormed viewMissingB) ⟨0, 0⟩ ⟨0, 0⟩ ⟨9, 0⟩ rfl (by decide)

end Confit
